import Mathlib

/-!
# PZEM-017 driver: measurement cache, register decode and setters

A shallow embedding of `src/pzem017.cpp` / `src/pzem017.h`.

* Machine integers are natural numbers; the one place where the source
  arithmetic can wrap (`_lastRead + _updateInterval`, both `uint64_t`) carries
  an explicit `% 2 ^ 64`.
* A `float` or `double` value is the rational it denotes.  Storing a quantity in
  a `double` or a `float` rounds it to the nearest binary64 or binary32 value,
  ties to even (`toDouble`, `toFloat`); the target has a 32-bit `int` and an
  IEEE binary64 `double`.  The `NAN` a float getter returns on failure is
  `none`.
* `ModbusMaster` is an external library.  Its object `_node` is modelled by the
  words of its response buffer, the slave id it was given and a ghost log of the
  requests issued to it.  What the bus answers to a request is an input of the
  operation that issues it (`Reply`).
* `millis()` is an input as well.  `updateValues` reads the clock twice (once for
  the cache check, once to stamp a successful read), so it takes two readings;
  a call that happens at one instant `t` passes `t` twice.
-/

/-! ## Constants of `pzem017.cpp` -/

def HOLDING_REGISTER_VOLTAGE : Nat := 0x0000
def HOLDING_REGISTER_CURRENT : Nat := 0x0001
def HOLDING_REGISTER_POWER_LOW : Nat := 0x0002
def HOLDING_REGISTER_POWER_HIGH : Nat := 0x0003
def HOLDING_REGISTER_ENERGY_LOW : Nat := 0x0004
def HOLDING_REGISTER_ENERGY_HIGH : Nat := 0x0005
def HOLDING_REGISTER_ALARM_OVERVOLTAGE : Nat := 0x0006
def HOLDING_REGISTER_ALARM_UNDERVOLTAGE : Nat := 0x0007

def WRITE_REGISTER_ALARM_OVERVOLTAGE : Nat := 0x0000
def WRITE_REGISTER_ALARM_UNDERVOLTAGE : Nat := 0x0001
def WRITE_REGISTER_SLAVE_ADDRESS : Nat := 0x0002
def WRITE_REGISTER_CURRENT_RANGE : Nat := 0x0003

def COMMAND_RESET_ENERGY : Nat := 0x42

/-- Default slave address of `pzem017.h`. -/
def PZEM_DEFAULT_ADDR : Nat := 0xF8

/-! ## The transport (`ModbusMaster`, external) -/

/-- A request issued to the `ModbusMaster` node. -/
inductive Call where
  | readInputRegisters (address quantity : Nat)
  | readHoldingRegisters (address quantity : Nat)
  | writeSingleRegister (address value : Nat)
  | arbitraryCommandNoParameters (command length : Nat)
  deriving DecidableEq, Repr

/-- The answer of the bus to one request: the `uint8_t` status the library
returns and, for a register read, the 16-bit words of the response. -/
structure Reply where
  status : Nat
  words : List Nat
  deriving DecidableEq, Repr

/-- The `ModbusMaster` object: slave id, response buffer and the ghost log of
the requests it has been asked to perform (oldest first). -/
structure ModbusMaster where
  slave : Nat
  responseBuffer : List Nat
  calls : List Call
  deriving DecidableEq, Repr

namespace ModbusMaster

/-- Status code `ku8MBSuccess` of the library. -/
def ku8MBSuccess : Nat := 0x00

/-- Status code `ku8MBIllegalDataValue` of the library. -/
def ku8MBIllegalDataValue : Nat := 0x03

/-- Status code `ku8MBInvalidSlaveID` of the library. -/
def ku8MBInvalidSlaveID : Nat := 0xE0

/-- Size of the library's response buffer, in words. -/
def ku8MaxBufferSize : Nat := 64

/-- The response words of a successful read overwrite the front of the
buffer; the words behind them stay as they were. -/
def store (words old : List Nat) : List Nat :=
  words ++ old.drop words.length

/-- A register read: the request is logged, the status is returned, and on
success the response words are stored in the buffer. -/
def readRegisters (n : ModbusMaster) (c : Call) (r : Reply) : Nat × ModbusMaster :=
  (r.status,
   { n with
     responseBuffer :=
       if r.status = ku8MBSuccess then store r.words n.responseBuffer
       else n.responseBuffer
     calls := n.calls ++ [c] })

def readInputRegisters (n : ModbusMaster) (address quantity : Nat) (r : Reply) :
    Nat × ModbusMaster :=
  n.readRegisters (Call.readInputRegisters address quantity) r

def readHoldingRegisters (n : ModbusMaster) (address quantity : Nat) (r : Reply) :
    Nat × ModbusMaster :=
  n.readRegisters (Call.readHoldingRegisters address quantity) r

/-- A single-register write: logged, status returned, buffer untouched. -/
def writeSingleRegister (n : ModbusMaster) (address value : Nat) (r : Reply) :
    Nat × ModbusMaster :=
  (r.status, { n with calls := n.calls ++ [Call.writeSingleRegister address value] })

/-- A vendor command without parameters: logged, status returned. -/
def arbitraryCommandNoParameters (n : ModbusMaster) (command length : Nat) (r : Reply) :
    Nat × ModbusMaster :=
  (r.status,
   { n with calls := n.calls ++ [Call.arbitraryCommandNoParameters command length] })

/-- Word `i` of the response buffer, a `uint16_t`; `0xFFFF` past the buffer. -/
def getResponseBuffer (n : ModbusMaster) (i : Nat) : Nat :=
  if i < ku8MaxBufferSize then n.responseBuffer.getD i 0 % 65536 else 0xFFFF

end ModbusMaster

/-! ## Rounding to `double` and `float` -/

/-- Nearest integer to `m`, a tie going to the even neighbour. -/
def roundHalfEven (m : ℚ) : ℤ :=
  if m - ⌊m⌋ < 1 / 2 then ⌊m⌋
  else if 1 / 2 < m - ⌊m⌋ then ⌊m⌋ + 1
  else if ⌊m⌋ % 2 = 0 then ⌊m⌋
  else ⌊m⌋ + 1

/-- Nearest value to `q` with a significand of `p` bits and a last-place
exponent of at least `emin` (round to nearest, ties to even): the IEEE 754
rounding of a finite quantity below the overflow threshold of the format. -/
def roundBinary (p : ℕ) (emin : ℤ) (q : ℚ) : ℚ :=
  if q = 0 then 0
  else
    let s : ℤ := max (Int.log 2 |q| - ((p : ℤ) - 1)) emin
    (if q < 0 then -1 else 1) * (roundHalfEven (|q| / 2 ^ s) : ℚ) * 2 ^ s

/-- Rounding to binary64, the `double` of the target. -/
def toDouble (q : ℚ) : ℚ := roundBinary 53 (-1074) q

/-- Rounding to binary32, the `float` of the target. -/
def toFloat (q : ℚ) : ℚ := roundBinary 24 (-149) q

/-! ## The session (`class PZEM017`) -/

/-- The anonymous struct `_currentValues`; a `float` member holds the rational
value of the stored binary32 number. -/
structure CurrentValues where
  voltage : ℚ
  current : ℚ
  power : ℚ
  energy : ℚ
  underVoltageAlarm : Bool
  overVoltageAlarm : Bool
  deriving DecidableEq

/-- The private members of `class PZEM017`. -/
structure PZEM017 where
  node : ModbusMaster
  slaveAddress : Nat
  currentValues : CurrentValues
  lastRead : Nat
  updateInterval : Nat
  lastResult : Nat
  deriving DecidableEq

namespace PZEM017

open ModbusMaster

/-- The cache test of `updateValues`: `_lastRead + _updateInterval > millis()`,
the sum being a `uint64_t` sum. -/
def cacheFresh (s : PZEM017) (now : Nat) : Bool :=
  decide ((s.lastRead + s.updateInterval) % 2 ^ 64 > now)

/-- The expression `lo | (hi << 8)` on two response words.  The operands are `uint16_t`
promoted to `int`; with a 32-bit `int` the shifted word is at most `0xFFFF00`
and nothing is lost. -/
def combine (lo hi : Nat) : Nat :=
  lo ||| (hi <<< 8)

/-- Method `PZEM017::updateValues`.  `now` is the clock at the cache check, `fin` the
clock when a successful read is stamped, `r` the answer of the bus if the
read is issued.  A quotient by `100.0` or `10.0` is a `double` quotient
narrowed to the `float` member; the energy is an `int` converted to `float`. -/
def updateValues (s : PZEM017) (now fin : Nat) (r : Reply) : Bool × PZEM017 :=
  if s.cacheFresh now then
    (true, s)
  else
    let res := s.node.readInputRegisters 0x0000 7 r
    let result := res.1
    let s1 : PZEM017 := { s with node := res.2, lastResult := result }
    if result ≠ ku8MBSuccess then
      (false, s1)
    else
      (true,
       { s1 with
         currentValues :=
           { voltage :=
               toFloat (toDouble
                 ((s1.node.getResponseBuffer HOLDING_REGISTER_VOLTAGE : ℚ) / 100))
             current :=
               toFloat (toDouble
                 ((s1.node.getResponseBuffer HOLDING_REGISTER_CURRENT : ℚ) / 100))
             power :=
               toFloat (toDouble
                 (((combine (s1.node.getResponseBuffer HOLDING_REGISTER_POWER_LOW)
                    (s1.node.getResponseBuffer HOLDING_REGISTER_POWER_HIGH) : Nat) : ℚ) / 10))
             energy :=
               toFloat
                 ((combine (s1.node.getResponseBuffer HOLDING_REGISTER_ENERGY_LOW)
                    (s1.node.getResponseBuffer HOLDING_REGISTER_ENERGY_HIGH) : Nat) : ℚ)
             overVoltageAlarm :=
               decide (s1.node.getResponseBuffer HOLDING_REGISTER_ALARM_OVERVOLTAGE = 0xFFFF)
             underVoltageAlarm :=
               decide (s1.node.getResponseBuffer HOLDING_REGISTER_ALARM_UNDERVOLTAGE = 0xFFFF) }
         lastRead := fin })

/-- The statement `if (forceNewReading) _lastRead += _updateInterval;` that
opens every getter. -/
def shiftLastRead (s : PZEM017) (forceNewReading : Bool) : PZEM017 :=
  if forceNewReading then
    { s with lastRead := (s.lastRead + s.updateInterval) % 2 ^ 64 }
  else s

/-- Method `PZEM017::voltage`; `none` is `NAN`. -/
def voltage (s : PZEM017) (forceNewReading : Bool) (now fin : Nat) (r : Reply) :
    Option ℚ × PZEM017 :=
  let u := (s.shiftLastRead forceNewReading).updateValues now fin r
  if !u.1 then (none, u.2) else (some u.2.currentValues.voltage, u.2)

/-- Method `PZEM017::current`; `none` is `NAN`. -/
def current (s : PZEM017) (forceNewReading : Bool) (now fin : Nat) (r : Reply) :
    Option ℚ × PZEM017 :=
  let u := (s.shiftLastRead forceNewReading).updateValues now fin r
  if !u.1 then (none, u.2) else (some u.2.currentValues.current, u.2)

/-- Method `PZEM017::power`; `none` is `NAN`. -/
def power (s : PZEM017) (forceNewReading : Bool) (now fin : Nat) (r : Reply) :
    Option ℚ × PZEM017 :=
  let u := (s.shiftLastRead forceNewReading).updateValues now fin r
  if !u.1 then (none, u.2) else (some u.2.currentValues.power, u.2)

/-- Method `PZEM017::energy`; `none` is `NAN`. -/
def energy (s : PZEM017) (forceNewReading : Bool) (now fin : Nat) (r : Reply) :
    Option ℚ × PZEM017 :=
  let u := (s.shiftLastRead forceNewReading).updateValues now fin r
  if !u.1 then (none, u.2) else (some u.2.currentValues.energy, u.2)

/-- Method `PZEM017::getUndervoltageAlarmStatus`.  `alarm` is the value of `*alarm`
before the call; the result is the returned status, `*alarm` after the call
and the session. -/
def getUndervoltageAlarmStatus (s : PZEM017) (alarm : Bool) (forceNewReading : Bool)
    (now fin : Nat) (r : Reply) : Bool × Bool × PZEM017 :=
  let u := (s.shiftLastRead forceNewReading).updateValues now fin r
  let result := u.1
  (result, if result then u.2.currentValues.underVoltageAlarm else alarm, u.2)

/-- Method `PZEM017::getOvervoltageAlarmStatus`, with the same conventions. -/
def getOvervoltageAlarmStatus (s : PZEM017) (alarm : Bool) (forceNewReading : Bool)
    (now fin : Nat) (r : Reply) : Bool × Bool × PZEM017 :=
  let u := (s.shiftLastRead forceNewReading).updateValues now fin r
  let result := u.1
  (result, if result then u.2.currentValues.overVoltageAlarm else alarm, u.2)

/-- Method `PZEM017::getLastOperationResult`. -/
def getLastOperationResult (s : PZEM017) : Nat := s.lastResult

/-- Method `PZEM017::getAddress`. -/
def getAddress (s : PZEM017) : Nat := s.slaveAddress

/-- The conversion `(uint16_t)volts` of a `float`: the fractional part is
discarded (truncation toward zero). -/
def toUint16 (volts : ℚ) : Nat :=
  (Int.tdiv volts.num volts.den).toNat % 65536

/-- Method `PZEM017::setUndervoltageAlarm`. -/
def setUndervoltageAlarm (s : PZEM017) (volts : ℚ) (r : Reply) : Bool × PZEM017 :=
  if volts < 1 ∨ volts > 350 then
    (false, { s with lastResult := ku8MBIllegalDataValue })
  else
    let res := s.node.writeSingleRegister WRITE_REGISTER_ALARM_UNDERVOLTAGE (toUint16 volts) r
    (decide (res.1 = ku8MBSuccess), { s with node := res.2, lastResult := res.1 })

/-- Method `PZEM017::setOvervoltageAlarm`. -/
def setOvervoltageAlarm (s : PZEM017) (volts : ℚ) (r : Reply) : Bool × PZEM017 :=
  if volts < 5 ∨ volts > 350 then
    (false, { s with lastResult := ku8MBIllegalDataValue })
  else
    let res := s.node.writeSingleRegister WRITE_REGISTER_ALARM_OVERVOLTAGE (toUint16 volts) r
    (decide (res.1 = ku8MBSuccess), { s with node := res.2, lastResult := res.1 })

/-- Method `PZEM017::begin(Stream &, uint8_t)`: the session's own node is given
the slave id and the session records it.  Every other member keeps the value
it had, the constructor initialising none of them. -/
def begin (s : PZEM017) (slaveAddress : Nat) : PZEM017 :=
  { s with node := { s.node with slave := slaveAddress }, slaveAddress := slaveAddress }

/-- Method `PZEM017::begin(ModbusMaster &, uint8_t)`: the node handed in is
copied into the session, given the slave id, and the session records the id. -/
def beginNode (s : PZEM017) (node : ModbusMaster) (slaveAddress : Nat) : PZEM017 :=
  { s with node := { node with slave := slaveAddress }, slaveAddress := slaveAddress }

/-- Method `PZEM017::setUpdateInterval`; `now` is the value of `millis()`. -/
def setUpdateInterval (s : PZEM017) (updateInterval : Nat) (now : Nat) : PZEM017 :=
  { s with updateInterval := updateInterval, lastRead := now }

/-- Method `PZEM017::resetEnergy`. -/
def resetEnergy (s : PZEM017) (r : Reply) : Bool × PZEM017 :=
  let res := s.node.arbitraryCommandNoParameters COMMAND_RESET_ENERGY 4 r
  let s1 : PZEM017 := { s with node := res.2, lastResult := res.1 }
  if res.1 ≠ ku8MBSuccess then
    (false, s1)
  else
    (true, { s1 with currentValues := { s1.currentValues with energy := 0 } })

/-- Method `PZEM017::setSlaveAddress`. -/
def setSlaveAddress (s : PZEM017) (newAddress : Nat) : Bool × PZEM017 :=
  if newAddress < 0x01 ∨ newAddress > 0xf7 then
    (false, { s with lastResult := ku8MBInvalidSlaveID })
  else
    (true, { s with slaveAddress := newAddress })

/-- Method `PZEM017::setAddress`. -/
def setAddress (s : PZEM017) (newAddress : Nat) (r : Reply) : Bool × PZEM017 :=
  if newAddress < 0x0001 ∨ newAddress > 0x00f7 then
    (false, { s with lastResult := ku8MBInvalidSlaveID })
  else
    let res := s.node.writeSingleRegister WRITE_REGISTER_SLAVE_ADDRESS newAddress r
    (decide (res.1 = ku8MBSuccess), { s with node := res.2, lastResult := res.1 })

/-- Method `PZEM017::setCurrentRange`. -/
def setCurrentRange (s : PZEM017) (range : Nat) (r : Reply) : Bool × PZEM017 :=
  let res := s.node.writeSingleRegister WRITE_REGISTER_CURRENT_RANGE range r
  (decide (res.1 = ku8MBSuccess), { s with node := res.2, lastResult := res.1 })

/-- Method `PZEM017::getCurrentRange`; the returned `uint8_t` is the low byte of
response word 0. -/
def getCurrentRange (s : PZEM017) (r : Reply) : Nat × PZEM017 :=
  let res := s.node.readHoldingRegisters WRITE_REGISTER_CURRENT_RANGE 1 r
  let s1 : PZEM017 := { s with node := res.2, lastResult := res.1 }
  (s1.node.getResponseBuffer 0 % 256, s1)

/-- The six getters that run the cache policy. -/
inductive Getter where
  | voltage
  | current
  | power
  | energy
  | getUndervoltageAlarmStatus
  | getOvervoltageAlarmStatus
  deriving DecidableEq, Repr

/-- The session after a call of getter `g`; `alarm` is the value behind the
pointer handed to an alarm-status getter. -/
def Getter.after (g : Getter) (s : PZEM017) (alarm : Bool) (forceNewReading : Bool)
    (now fin : Nat) (r : Reply) : PZEM017 :=
  match g with
  | .voltage => (s.voltage forceNewReading now fin r).2
  | .current => (s.current forceNewReading now fin r).2
  | .power => (s.power forceNewReading now fin r).2
  | .energy => (s.energy forceNewReading now fin r).2
  | .getUndervoltageAlarmStatus =>
      (s.getUndervoltageAlarmStatus alarm forceNewReading now fin r).2.2
  | .getOvervoltageAlarmStatus =>
      (s.getOvervoltageAlarmStatus alarm forceNewReading now fin r).2.2

/-- The register reads `updateValues` issues: requests for 7 input registers
from offset 0 in a request log. -/
def transportReads (calls : List Call) : Nat :=
  calls.count (Call.readInputRegisters 0x0000 7)

/-- Whether a call of getter `g` reports success: a float getter returns a
value other than `NAN`, an alarm-status getter returns true. -/
def Getter.ok (g : Getter) (s : PZEM017) (alarm : Bool) (forceNewReading : Bool)
    (now fin : Nat) (r : Reply) : Bool :=
  match g with
  | .voltage => (s.voltage forceNewReading now fin r).1.isSome
  | .current => (s.current forceNewReading now fin r).1.isSome
  | .power => (s.power forceNewReading now fin r).1.isSome
  | .energy => (s.energy forceNewReading now fin r).1.isSome
  | .getUndervoltageAlarmStatus =>
      (s.getUndervoltageAlarmStatus alarm forceNewReading now fin r).1
  | .getOvervoltageAlarmStatus =>
      (s.getOvervoltageAlarmStatus alarm forceNewReading now fin r).1

/-! ## Traces of public operations -/

/-- One call of a public member of `class PZEM017`, with the inputs the
environment supplies to it (clock readings, answer of the bus). -/
inductive Op where
  | begin (slaveAddress : Nat)
  | beginNode (node : ModbusMaster) (slaveAddress : Nat)
  | getter (g : Getter) (alarm forceNewReading : Bool) (now fin : Nat) (r : Reply)
  | resetEnergy (r : Reply)
  | setSlaveAddress (newAddress : Nat)
  | setAddress (newAddress : Nat) (r : Reply)
  | getAddress
  | setCurrentRange (range : Nat) (r : Reply)
  | getCurrentRange (r : Reply)
  | setUndervoltageAlarm (volts : ℚ) (r : Reply)
  | setOvervoltageAlarm (volts : ℚ) (r : Reply)
  | getLastOperationResult
  | getLastOperationResultString
  | setUpdateInterval (updateInterval now : Nat)

/-- The session after one public call. -/
def Op.apply (o : Op) (s : PZEM017) : PZEM017 :=
  match o with
  | .begin a => s.begin a
  | .beginNode n a => s.beginNode n a
  | .getter g alarm f now fin r => g.after s alarm f now fin r
  | .resetEnergy r => (s.resetEnergy r).2
  | .setSlaveAddress a => (s.setSlaveAddress a).2
  | .setAddress a r => (s.setAddress a r).2
  | .getAddress => s
  | .setCurrentRange range r => (s.setCurrentRange range r).2
  | .getCurrentRange r => (s.getCurrentRange r).2
  | .setUndervoltageAlarm volts r => (s.setUndervoltageAlarm volts r).2
  | .setOvervoltageAlarm volts r => (s.setOvervoltageAlarm volts r).2
  | .getLastOperationResult => s
  | .getLastOperationResultString => s
  | .setUpdateInterval d now => s.setUpdateInterval d now

/-- The session after a sequence of public calls, first call first. -/
def run (ops : List Op) (s : PZEM017) : PZEM017 :=
  ops.foldl (fun st o => o.apply st) s

/-- The address arguments of the `begin` calls of a trace. -/
def beginAddresses : List Op → List Nat
  | [] => []
  | Op.begin a :: ops => a :: beginAddresses ops
  | Op.beginNode _ a :: ops => a :: beginAddresses ops
  | _ :: ops => beginAddresses ops

/-- The accepted range of slave addresses, `0x01 .. 0xF7`. -/
def validAddress (a : Nat) : Prop := 0x01 ≤ a ∧ a ≤ 0xf7

instance (a : Nat) : Decidable (validAddress a) := by
  unfold validAddress
  infer_instance

/-! ## Sample sessions and replies -/

/-- A node that has not been used yet. -/
def freshNode : ModbusMaster :=
  { slave := 1, responseBuffer := [], calls := [] }

/-- A session bound to slave 1 right after `setUpdateInterval(1000)` at clock 0:
`lastRead = 0`, `updateInterval = 1000`. -/
def idleSession : PZEM017 :=
  { node := freshNode
    slaveAddress := 1
    currentValues :=
      { voltage := 0, current := 0, power := 0, energy := 0,
        underVoltageAlarm := false, overVoltageAlarm := false }
    lastRead := 0
    updateInterval := 1000
    lastResult := 0 }

/-- A successful answer carrying seven words. -/
def okReply : Reply :=
  { status := ku8MBSuccess, words := [1234, 250, 0x0064, 0x0001, 7, 2, 0xFFFF] }

/-- A failed transaction (response timed out, `ku8MBResponseTimedOut`). -/
def timeoutReply : Reply :=
  { status := 0xE2, words := [] }

/-- A successful answer whose power words are low = `0x0000`, high = `0x0001`. -/
def highWordReply : Reply :=
  { status := ku8MBSuccess, words := [0, 0, 0x0000, 0x0001, 0, 0, 0] }

/-- A node whose response buffer still holds `0xFFFF` in word 7 from an earlier
use. -/
def usedNode : ModbusMaster :=
  { slave := 1, responseBuffer := [0, 0, 0, 0, 0, 0, 0, 0xFFFF], calls := [] }

/-- The idle session bound to `usedNode`. -/
def usedSession : PZEM017 :=
  idleSession.beginNode usedNode 1

/-! ## Cache hit -/

theorem updateValues_of_fresh (s : PZEM017) (now fin : Nat) (r : Reply)
    (h : s.cacheFresh now = true) : s.updateValues now fin r = (true, s) := by
  simp [updateValues, h]

/-- C1. Cache hit: when `lastRead + updateInterval` (64-bit sum) is greater than
the clock, `updateValues` and every getter called without `forceNewReading`
report success (the getters return the cached field), and the session is left
exactly as it was: no request reaches the transport, and `lastRead`, the
snapshot, `lastResult` and the slave address keep their values. -/
theorem cache_hit_frame (s : PZEM017) (now fin : Nat) (r : Reply) (alarm : Bool)
    (h : (s.lastRead + s.updateInterval) % 2 ^ 64 > now) :
    s.updateValues now fin r = (true, s)
    ∧ (s.updateValues now fin r).2.node.calls = s.node.calls
    ∧ s.voltage false now fin r = (some s.currentValues.voltage, s)
    ∧ s.current false now fin r = (some s.currentValues.current, s)
    ∧ s.power false now fin r = (some s.currentValues.power, s)
    ∧ s.energy false now fin r = (some s.currentValues.energy, s)
    ∧ s.getUndervoltageAlarmStatus alarm false now fin r
        = (true, s.currentValues.underVoltageAlarm, s)
    ∧ s.getOvervoltageAlarmStatus alarm false now fin r
        = (true, s.currentValues.overVoltageAlarm, s) := by
  have hf : s.cacheFresh now = true := by simpa [cacheFresh] using h
  have hu := updateValues_of_fresh s now fin r hf
  simp [voltage, current, power, energy, getUndervoltageAlarmStatus,
    getOvervoltageAlarmStatus, shiftLastRead, hu]

theorem cache_hit_frame_witness :
    (idleSession.lastRead + idleSession.updateInterval) % 2 ^ 64 > 500
    ∧ idleSession.updateValues 500 501 okReply = (true, idleSession)
    ∧ idleSession.energy false 500 501 okReply
        = (some idleSession.currentValues.energy, idleSession) :=
  ⟨by decide,
   (cache_hit_frame idleSession 500 501 okReply false (by decide)).1,
   (cache_hit_frame idleSession 500 501 okReply false (by decide)).2.2.2.2.2.1⟩

/-! ## Staleness, forced refresh and the read path -/

theorem updateValues_of_stale_fail (s : PZEM017) (now fin : Nat) (r : Reply)
    (h : s.cacheFresh now = false) (hr : r.status ≠ ku8MBSuccess) :
    s.updateValues now fin r
      = (false,
         { s with
           node := (s.node.readInputRegisters 0x0000 7 r).2
           lastResult := r.status }) := by
  simp [updateValues, h, readInputRegisters, readRegisters, hr]

theorem calls_updateValues_of_stale (s : PZEM017) (now fin : Nat) (r : Reply)
    (h : s.cacheFresh now = false) :
    (s.updateValues now fin r).2.node.calls
      = s.node.calls ++ [Call.readInputRegisters 0x0000 7] := by
  by_cases hr : r.status = ku8MBSuccess <;>
    simp [updateValues, h, readInputRegisters, readRegisters, hr]

theorem lastRead_updateValues_of_stale_ok (s : PZEM017) (now fin : Nat) (r : Reply)
    (h : s.cacheFresh now = false) (hr : r.status = ku8MBSuccess) :
    (s.updateValues now fin r).2.lastRead = fin
    ∧ (s.updateValues now fin r).2.updateInterval = s.updateInterval := by
  simp [updateValues, h, readInputRegisters, readRegisters, hr]

theorem after_eq_updateValues (g : Getter) (s : PZEM017) (alarm f : Bool) (now fin : Nat)
    (r : Reply) :
    g.after s alarm f now fin r = ((s.shiftLastRead f).updateValues now fin r).2 := by
  cases g <;>
    simp only [Getter.after, voltage, current, power, energy,
      getUndervoltageAlarmStatus, getOvervoltageAlarmStatus] <;>
    split <;> rfl

/-- C2 (the code at the failing input). From `lastRead = 0`, `updateInterval = 1000`
and the clock at 1000, a getter called without `forceNewReading` issues the
register read, but the same getter called with `forceNewReading = true` issues
none and serves the cached value, and a second forced call at the same clock
issues none either: the shift moves `lastRead` to 1000 and then 2000, so the
cache test `lastRead + updateInterval > 1000` succeeds. -/
theorem forced_refresh_serves_cache (g : Getter) (alarm : Bool) (r1 r2 : Reply) :
    (g.after idleSession alarm false 1000 1000 r1).node.calls
        = [Call.readInputRegisters 0x0000 7]
    ∧ (g.after idleSession alarm true 1000 1000 r1).node.calls = []
    ∧ (g.after (g.after idleSession alarm true 1000 1000 r1) alarm true 1000 1000 r2).node.calls
        = []
    ∧ (g.after (g.after idleSession alarm true 1000 1000 r1) alarm true 1000 1000 r2).lastRead
        = 2000
    ∧ idleSession.voltage true 1000 1000 r1
        = (some idleSession.currentValues.voltage, { idleSession with lastRead := 1000 }) := by
  have h1 : (idleSession.shiftLastRead true).cacheFresh 1000 = true := by decide
  have h2 : ((idleSession.shiftLastRead true).shiftLastRead true).cacheFresh 1000 = true := by
    decide
  have h0 : (idleSession.shiftLastRead false).cacheFresh 1000 = false := by decide
  have e1 := updateValues_of_fresh (idleSession.shiftLastRead true) 1000 1000 r1 h1
  have e2 := updateValues_of_fresh ((idleSession.shiftLastRead true).shiftLastRead true)
    1000 1000 r2 h2
  refine ⟨?_, ?_, ?_, ?_, ?_⟩
  · rw [after_eq_updateValues, calls_updateValues_of_stale _ _ _ _ h0]
    rfl
  · rw [after_eq_updateValues, e1]
    rfl
  · rw [after_eq_updateValues, after_eq_updateValues, e1]
    simp only [e2]
    rfl
  · rw [after_eq_updateValues, after_eq_updateValues, e1]
    simp only [e2]
    rfl
  · simp only [voltage, e1]
    rfl

/-- C3. Cache freshness over a trace: with `updateInterval > 0`, a cache that is
stale at `t0` (`lastRead + updateInterval ≤ t0`) and a window `t0 + updateInterval`
that does not overflow 64 bits, a getter call at `t0` answered with success
issues one register read; a second getter call at `t1`, `t0 ≤ t1 < t0 +
updateInterval`, issues none, so the log holds exactly one read; a third call
at any `t2 ≥ t0 + updateInterval` issues the second read.  No call is forced. -/
theorem cache_freshness_trace (g0 g1 g2 : Getter) (a0 a1 a2 : Bool) (s : PZEM017)
    (t0 t1 t2 : Nat) (r0 r1 r2 : Reply)
    (hI : 0 < s.updateInterval)
    (hstale : s.lastRead + s.updateInterval ≤ t0)
    (hwin : t0 + s.updateInterval < 2 ^ 64)
    (hr0 : r0.status = ku8MBSuccess)
    (h01 : t0 ≤ t1) (h1 : t1 < t0 + s.updateInterval)
    (h2 : t0 + s.updateInterval ≤ t2) :
    (g0.after s a0 false t0 t0 r0).node.calls
        = s.node.calls ++ [Call.readInputRegisters 0x0000 7]
    ∧ (g1.after (g0.after s a0 false t0 t0 r0) a1 false t1 t1 r1).node.calls
        = s.node.calls ++ [Call.readInputRegisters 0x0000 7]
    ∧ transportReads
          (g1.after (g0.after s a0 false t0 t0 r0) a1 false t1 t1 r1).node.calls
        = transportReads s.node.calls + 1
    ∧ (g2.after (g1.after (g0.after s a0 false t0 t0 r0) a1 false t1 t1 r1)
          a2 false t2 t2 r2).node.calls
        = s.node.calls
            ++ [Call.readInputRegisters 0x0000 7, Call.readInputRegisters 0x0000 7]
    ∧ transportReads
          (g2.after (g1.after (g0.after s a0 false t0 t0 r0) a1 false t1 t1 r1)
            a2 false t2 t2 r2).node.calls
        = transportReads s.node.calls + 2 := by
  have _ := hI
  have _ := h01
  -- first call: stale, read issued, stamped with t0
  have hs0 : (s.shiftLastRead false).cacheFresh t0 = false := by
    have := Nat.mod_le (s.lastRead + s.updateInterval) (2 ^ 64)
    simp only [shiftLastRead, cacheFresh, Bool.false_eq_true, if_false, decide_eq_false_iff_not]
    omega
  have hc0 := calls_updateValues_of_stale (s.shiftLastRead false) t0 t0 r0 hs0
  have hl0 := lastRead_updateValues_of_stale_ok (s.shiftLastRead false) t0 t0 r0 hs0 hr0
  have e0 := after_eq_updateValues g0 s a0 false t0 t0 r0
  have c0 : (g0.after s a0 false t0 t0 r0).node.calls
      = s.node.calls ++ [Call.readInputRegisters 0x0000 7] := by
    rw [e0, hc0]; simp [shiftLastRead]
  have l0 : (g0.after s a0 false t0 t0 r0).lastRead = t0 := by rw [e0]; exact hl0.1
  have i0 : (g0.after s a0 false t0 t0 r0).updateInterval = s.updateInterval := by
    rw [e0, hl0.2]; simp [shiftLastRead]
  -- second call: fresh, session untouched
  have hs1 : ((g0.after s a0 false t0 t0 r0).shiftLastRead false).cacheFresh t1 = true := by
    simp only [shiftLastRead, cacheFresh, Bool.false_eq_true, if_false, l0, i0,
      decide_eq_true_eq]
    rw [Nat.mod_eq_of_lt hwin]
    exact h1
  have e1 : g1.after (g0.after s a0 false t0 t0 r0) a1 false t1 t1 r1
      = g0.after s a0 false t0 t0 r0 := by
    rw [after_eq_updateValues, updateValues_of_fresh _ _ _ _ hs1]
    simp [shiftLastRead]
  -- third call: stale again
  have hs2 : ((g0.after s a0 false t0 t0 r0).shiftLastRead false).cacheFresh t2 = false := by
    simp only [shiftLastRead, cacheFresh, Bool.false_eq_true, if_false, l0, i0,
      decide_eq_false_iff_not]
    rw [Nat.mod_eq_of_lt hwin]
    omega
  have c2 : (g2.after (g0.after s a0 false t0 t0 r0) a2 false t2 t2 r2).node.calls
      = s.node.calls
          ++ [Call.readInputRegisters 0x0000 7, Call.readInputRegisters 0x0000 7] := by
    rw [after_eq_updateValues, calls_updateValues_of_stale _ _ _ _ hs2]
    simp [shiftLastRead, c0]
  rw [e1]
  refine ⟨c0, c0, ?_, c2, ?_⟩
  · rw [c0]; simp [transportReads]
  · rw [c2]; simp [transportReads]

theorem cache_freshness_trace_witness :
    (0 < idleSession.updateInterval
      ∧ idleSession.lastRead + idleSession.updateInterval ≤ 1000
      ∧ 1000 + idleSession.updateInterval < 2 ^ 64
      ∧ okReply.status = ku8MBSuccess
      ∧ 1000 ≤ 1500 ∧ 1500 < 1000 + idleSession.updateInterval
      ∧ 1000 + idleSession.updateInterval ≤ 2000)
    ∧ transportReads
          (Getter.power.after
            (Getter.getOvervoltageAlarmStatus.after
              (Getter.voltage.after idleSession false false 1000 1000 okReply)
              false false 1500 1500 timeoutReply)
            false false 2000 2000 timeoutReply).node.calls
        = transportReads idleSession.node.calls + 2 :=
  ⟨by decide,
   (cache_freshness_trace Getter.voltage Getter.getOvervoltageAlarmStatus Getter.power
      false false false idleSession 1000 1500 2000 okReply timeoutReply timeoutReply
      (by decide) (by decide) (by decide) rfl (by decide) (by decide) (by decide)).2.2.2.2⟩

/-- C4. Failed read: when the cache test (run after the forced shift, if any)
finds the cache stale and the transport answers the register read with a status
other than success, each float getter returns `NAN`, each alarm-status getter
returns false and leaves the caller's flag as it was, the six snapshot fields
keep their values, `updateValues` leaves `lastRead` as it found it, and
`lastResult` is the status the transport returned; the one request issued is
the register read. -/
theorem failed_read_atomic (s : PZEM017) (f alarm : Bool) (now fin : Nat) (r : Reply)
    (hstale : (s.shiftLastRead f).cacheFresh now = false)
    (hfail : r.status ≠ ku8MBSuccess) :
    (s.voltage f now fin r).1 = none
    ∧ (s.current f now fin r).1 = none
    ∧ (s.power f now fin r).1 = none
    ∧ (s.energy f now fin r).1 = none
    ∧ (s.getUndervoltageAlarmStatus alarm f now fin r).1 = false
    ∧ (s.getUndervoltageAlarmStatus alarm f now fin r).2.1 = alarm
    ∧ (s.getOvervoltageAlarmStatus alarm f now fin r).1 = false
    ∧ (s.getOvervoltageAlarmStatus alarm f now fin r).2.1 = alarm
    ∧ ((s.shiftLastRead f).updateValues now fin r).1 = false
    ∧ ((s.shiftLastRead f).updateValues now fin r).2.lastRead = (s.shiftLastRead f).lastRead
    ∧ ∀ g : Getter,
        (g.after s alarm f now fin r).currentValues = s.currentValues
        ∧ (g.after s alarm f now fin r).lastRead = (s.shiftLastRead f).lastRead
        ∧ (g.after s alarm f now fin r).lastResult = r.status
        ∧ (g.after s alarm f now fin r).slaveAddress = s.slaveAddress
        ∧ (g.after s alarm f now fin r).updateInterval = s.updateInterval
        ∧ (g.after s alarm f now fin r).node.calls
            = s.node.calls ++ [Call.readInputRegisters 0x0000 7] := by
  have hu := updateValues_of_stale_fail (s.shiftLastRead f) now fin r hstale hfail
  have hs : (s.shiftLastRead f).currentValues = s.currentValues
      ∧ (s.shiftLastRead f).slaveAddress = s.slaveAddress
      ∧ (s.shiftLastRead f).updateInterval = s.updateInterval
      ∧ (s.shiftLastRead f).node = s.node := by
    cases f <;> simp [shiftLastRead]
  refine ⟨?_, ?_, ?_, ?_, ?_, ?_, ?_, ?_, ?_, ?_, ?_⟩
  · simp [voltage, hu]
  · simp [current, hu]
  · simp [power, hu]
  · simp [energy, hu]
  · simp [getUndervoltageAlarmStatus, hu]
  · simp [getUndervoltageAlarmStatus, hu]
  · simp [getOvervoltageAlarmStatus, hu]
  · simp [getOvervoltageAlarmStatus, hu]
  · simp [hu]
  · simp [hu]
  · intro g
    rw [after_eq_updateValues, hu]
    simp [hs, readInputRegisters, readRegisters]

theorem failed_read_atomic_witness :
    ((idleSession.shiftLastRead false).cacheFresh 1000 = false
      ∧ timeoutReply.status ≠ ku8MBSuccess)
    ∧ (idleSession.voltage false 1000 1001 timeoutReply).1 = none :=
  ⟨by decide,
   (failed_read_atomic idleSession false true 1000 1001 timeoutReply
      (by decide) (by decide)).1⟩

/-! ## Rounding lemmas -/

theorem roundHalfEven_error (m : ℚ) : |(roundHalfEven m : ℚ) - m| ≤ 1 / 2 := by
  have h0 := Int.floor_le m
  have h1 := Int.lt_floor_add_one m
  unfold roundHalfEven
  split_ifs with ha hb hc
  · rw [abs_le]; constructor <;> linarith
  · push_cast; rw [abs_le]; constructor <;> linarith
  · rw [abs_le]; constructor <;> linarith
  · push_cast; rw [abs_le]; constructor <;> linarith

theorem roundHalfEven_eq (m : ℚ) (z : ℤ) (h : |m - z| < 1 / 2) : roundHalfEven m = z := by
  rw [abs_lt] at h
  obtain ⟨hl, hr⟩ := h
  by_cases hz : (z : ℚ) ≤ m
  · have hf : ⌊m⌋ = z := by
      rw [Int.floor_eq_iff]; constructor <;> linarith
    unfold roundHalfEven
    rw [hf, if_pos (by linarith)]
  · have hf : ⌊m⌋ = z - 1 := by
      rw [Int.floor_eq_iff]; push_cast; constructor <;> linarith
    unfold roundHalfEven
    rw [hf]
    push_cast
    rw [if_neg (by linarith), if_pos (by linarith)]
    ring

theorem roundHalfEven_intCast (z : ℤ) : roundHalfEven (z : ℚ) = z :=
  roundHalfEven_eq _ z (by simp)

theorem log_two_eq (q : ℚ) (k : ℤ) (h1 : (2 : ℚ) ^ k ≤ q) (h2 : q < (2 : ℚ) ^ (k + 1)) :
    Int.log 2 q = k := by
  have hq : 0 < q := lt_of_lt_of_le (by positivity) h1
  have a : k ≤ Int.log 2 q := (Int.zpow_le_iff_le_log (by norm_num) hq).mp (by exact_mod_cast h1)
  have b : Int.log 2 q < k + 1 := (Int.lt_zpow_iff_log_lt (by norm_num) hq).mp (by exact_mod_cast h2)
  omega

theorem roundBinary_eq (p : ℕ) (emin : ℤ) (q : ℚ) (k z : ℤ)
    (h1 : (2 : ℚ) ^ k ≤ q) (h2 : q < (2 : ℚ) ^ (k + 1)) (hs : emin ≤ k - ((p : ℤ) - 1))
    (hz : |q / 2 ^ (k - ((p : ℤ) - 1)) - z| < 1 / 2) :
    roundBinary p emin q = z * 2 ^ (k - ((p : ℤ) - 1)) := by
  have hq : 0 < q := lt_of_lt_of_le (by positivity) h1
  unfold roundBinary
  rw [if_neg (ne_of_gt hq), abs_of_pos hq, log_two_eq q k h1 h2]
  simp only [max_eq_left hs, if_neg (not_lt.mpr hq.le), one_mul]
  rw [roundHalfEven_eq _ z hz]

theorem roundBinary_error (p : ℕ) (emin : ℤ) (q : ℚ)
    (hq : (2 : ℚ) ^ (emin + ((p : ℤ) - 1)) ≤ q) :
    |roundBinary p emin q - q| ≤ q / 2 ^ p := by
  have hpos : 0 < q := lt_of_lt_of_le (by positivity) hq
  have hlog : emin + ((p : ℤ) - 1) ≤ Int.log 2 q :=
    (Int.zpow_le_iff_le_log (by norm_num) hpos).mp (by exact_mod_cast hq)
  have hle : (2 : ℚ) ^ (Int.log 2 q) ≤ q := by
    have := Int.zpow_log_le_self (R := ℚ) (b := 2) (by norm_num) hpos
    exact_mod_cast this
  have hs : max (Int.log 2 q - ((p : ℤ) - 1)) emin = Int.log 2 q - ((p : ℤ) - 1) :=
    max_eq_left (by omega)
  unfold roundBinary
  rw [if_neg (ne_of_gt hpos), abs_of_pos hpos]
  simp only [hs, if_neg (not_lt.mpr hpos.le), one_mul]
  set s : ℤ := Int.log 2 q - ((p : ℤ) - 1) with hsdef
  have h2s : (0 : ℚ) < 2 ^ s := by positivity
  have herr := roundHalfEven_error (q / 2 ^ s)
  have e1 : (roundHalfEven (q / 2 ^ s) : ℚ) * 2 ^ s - q
      = ((roundHalfEven (q / 2 ^ s) : ℚ) - q / 2 ^ s) * 2 ^ s := by
    field_simp
  rw [e1, abs_mul, abs_of_pos h2s]
  have e2 : (2 : ℚ) ^ s = 2 ^ (Int.log 2 q) * 2 / 2 ^ p := by
    rw [hsdef, zpow_sub₀ (by norm_num), zpow_sub₀ (by norm_num), zpow_natCast, zpow_one]
    field_simp
  calc |(roundHalfEven (q / 2 ^ s) : ℚ) - q / 2 ^ s| * 2 ^ s
      ≤ 1 / 2 * 2 ^ s := by gcongr
    _ = 2 ^ (Int.log 2 q) / 2 ^ p := by rw [e2]; ring
    _ ≤ q / 2 ^ p := by gcongr

theorem toFloat_toDouble_error (q : ℚ) (hq : 1 / 1024 ≤ q) :
    |toFloat (toDouble q) - q| ≤ q / 2 ^ 23 := by
  have hpos : 0 < q := lt_of_lt_of_le (by norm_num) hq
  have hd : |toDouble q - q| ≤ q / 2 ^ 53 := by
    apply roundBinary_error
    refine le_trans ?_ hq
    norm_num
  rw [abs_le] at hd
  obtain ⟨hd1, hd2⟩ := hd
  have hy : 1 / 2048 ≤ toDouble q := by
    have : q / 2 ^ 53 ≤ q / 2 := by gcongr; norm_num
    linarith
  have hf : |toFloat (toDouble q) - toDouble q| ≤ toDouble q / 2 ^ 24 := by
    apply roundBinary_error
    refine le_trans ?_ hy
    norm_num
  rw [abs_le] at hf
  obtain ⟨hf1, hf2⟩ := hf
  have hy2 : toDouble q ≤ q + q / 2 ^ 53 := by linarith
  have key : (q + q / 2 ^ 53) / 2 ^ 24 + q / 2 ^ 53 ≤ q / 2 ^ 23 := by
    have : (q + q / 2 ^ 53) / 2 ^ 24 + q / 2 ^ 53
        = q * ((1 + 1 / 2 ^ 53) / 2 ^ 24 + 1 / 2 ^ 53) := by ring
    rw [this, div_eq_mul_inv q]
    gcongr
    norm_num
  have hyb : toDouble q / 2 ^ 24 ≤ (q + q / 2 ^ 53) / 2 ^ 24 := by gcongr
  rw [abs_le]
  constructor <;> linarith

theorem toFloat_natCast (n : ℕ) (h : n < 2 ^ 24) : toFloat (n : ℚ) = n := by
  rcases Nat.eq_zero_or_pos n with h0 | hpos
  · subst h0; simp [toFloat, roundBinary]
  have hq : (0 : ℚ) < n := by exact_mod_cast hpos
  have hlog : Int.log 2 (n : ℚ) = (Nat.log 2 n : ℤ) := Int.log_natCast 2 n
  have hl : Nat.log 2 n < 24 := Nat.log_lt_of_lt_pow (by omega) h
  unfold toFloat roundBinary
  rw [if_neg (ne_of_gt hq), abs_of_pos hq, hlog]
  have hs : max ((Nat.log 2 n : ℤ) - (((24 : ℕ) : ℤ) - 1)) (-149)
      = -((23 - Nat.log 2 n : ℕ) : ℤ) := by
    rw [max_eq_left (by omega)]
    omega
  simp only [hs, if_neg (not_lt.mpr hq.le), one_mul]
  have e : (n : ℚ) / 2 ^ (-((23 - Nat.log 2 n : ℕ) : ℤ))
      = (((n * 2 ^ (23 - Nat.log 2 n) : ℕ) : ℤ) : ℚ) := by
    rw [zpow_neg, zpow_natCast]
    push_cast
    field_simp
  rw [e, roundHalfEven_intCast, zpow_neg, zpow_natCast]
  push_cast
  field_simp

theorem toFloat_toDouble_eq (q : ℚ) (k z1 z2 : ℤ)
    (h1 : (2 : ℚ) ^ k ≤ q) (h2 : q < (2 : ℚ) ^ (k + 1))
    (g1 : (2 : ℚ) ^ k ≤ z1 * 2 ^ (k - 52)) (g2 : (z1 : ℚ) * 2 ^ (k - 52) < (2 : ℚ) ^ (k + 1))
    (hk : -126 ≤ k)
    (hz1 : |q / 2 ^ (k - 52) - z1| < 1 / 2)
    (hz2 : |(z1 : ℚ) * 2 ^ (k - 52) / 2 ^ (k - 23) - z2| < 1 / 2) :
    toFloat (toDouble q) = z2 * 2 ^ (k - 23) := by
  have hd : toDouble q = z1 * 2 ^ (k - 52) := by
    have := roundBinary_eq 53 (-1074) q k z1 h1 h2 (by push_cast; omega)
      (by push_cast; norm_num; exact hz1)
    rw [toDouble, this]
    norm_num
  rw [hd]
  have := roundBinary_eq 24 (-149) (z1 * 2 ^ (k - 52)) k z2 g1 g2 (by push_cast; omega)
    (by push_cast; norm_num; exact hz2)
  rw [toFloat, this]
  norm_num

/-- A decoded quotient `n / d` is stored within a relative error of `2 ^ (-23)`. -/
theorem toFloat_toDouble_div_error (n : ℕ) (d : ℚ) (hd0 : 0 < d) (hd : d ≤ 1024) :
    |toFloat (toDouble ((n : ℚ) / d)) - (n : ℚ) / d| ≤ (n : ℚ) / d / 2 ^ 23 := by
  rcases Nat.eq_zero_or_pos n with h0 | hpos
  · subst h0
    simp [toFloat, toDouble, roundBinary]
  · apply toFloat_toDouble_error
    have h1 : (1 : ℚ) ≤ n := by exact_mod_cast hpos
    rw [le_div_iff₀ hd0]
    linarith

/-- Two 16-bit words combined by `lo | (hi << 8)` stay below `2 ^ 24`: the value
fits a 32-bit `int` and a binary32 significand. -/
theorem combine_lt (lo hi : Nat) (hlo : lo < 65536) (hhi : hi < 65536) :
    PZEM017.combine lo hi < 2 ^ 24 := by
  unfold PZEM017.combine
  apply Nat.or_lt_two_pow
  · omega
  · rw [Nat.shiftLeft_eq]
    omega

/-! ## Decoding a successful read -/

theorem updateValues_of_stale_ok (s : PZEM017) (now fin : Nat) (r : Reply)
    (h : s.cacheFresh now = false) (hr : r.status = ku8MBSuccess) :
    s.updateValues now fin r
      = (true,
         { s with
           node := (s.node.readInputRegisters 0x0000 7 r).2
           lastResult := ku8MBSuccess
           currentValues :=
             { voltage :=
                 toFloat (toDouble
                   (((s.node.readInputRegisters 0x0000 7 r).2.getResponseBuffer 0 : ℚ) / 100))
               current :=
                 toFloat (toDouble
                   (((s.node.readInputRegisters 0x0000 7 r).2.getResponseBuffer 1 : ℚ) / 100))
               power :=
                 toFloat (toDouble
                   (((combine ((s.node.readInputRegisters 0x0000 7 r).2.getResponseBuffer 2)
                     ((s.node.readInputRegisters 0x0000 7 r).2.getResponseBuffer 3) : Nat) : ℚ)
                     / 10))
               energy :=
                 toFloat
                   ((combine ((s.node.readInputRegisters 0x0000 7 r).2.getResponseBuffer 4)
                     ((s.node.readInputRegisters 0x0000 7 r).2.getResponseBuffer 5) : Nat) : ℚ)
               overVoltageAlarm :=
                 decide ((s.node.readInputRegisters 0x0000 7 r).2.getResponseBuffer 6 = 0xFFFF)
               underVoltageAlarm :=
                 decide ((s.node.readInputRegisters 0x0000 7 r).2.getResponseBuffer 7 = 0xFFFF) }
           lastRead := fin }) := by
  simp [updateValues, h, readInputRegisters, readRegisters, hr, HOLDING_REGISTER_VOLTAGE,
    HOLDING_REGISTER_CURRENT, HOLDING_REGISTER_POWER_LOW, HOLDING_REGISTER_POWER_HIGH,
    HOLDING_REGISTER_ENERGY_LOW, HOLDING_REGISTER_ENERGY_HIGH,
    HOLDING_REGISTER_ALARM_OVERVOLTAGE, HOLDING_REGISTER_ALARM_UNDERVOLTAGE]

/-- After a successful read, a buffer word inside the response is the word the
bus sent. -/
theorem getResponseBuffer_read_ok (n : ModbusMaster) (c : Call) (r : Reply) (i : Nat)
    (hr : r.status = ku8MBSuccess) (hi : i < r.words.length) (h64 : i < 64)
    (h16 : r.words.getD i 0 < 65536) :
    (n.readRegisters c r).2.getResponseBuffer i = r.words.getD i 0 := by
  have hget : (store r.words n.responseBuffer).getD i 0 = r.words.getD i 0 :=
    List.getD_append _ _ _ _ hi
  simp only [readRegisters, getResponseBuffer, hr, if_true, ku8MaxBufferSize, h64, hget]
  exact Nat.mod_eq_of_lt h16

/-- C5 (counterexample). A successful read at clock 1000 answered with the words
`[1234, 250, 0x0064, 0x0001, 7, 2, 0xFFFF]` leaves voltage =
12.340000152587890625, the `float` nearest to 12.34, not `1234 / 100`, and
power = 35.599998474121094, the `float` nearest to 35.6, not `178 / 5`. -/
theorem decode_is_rounded :
    (idleSession.updateValues 1000 1000 okReply).1 = true
    ∧ (idleSession.updateValues 1000 1000 okReply).2.currentValues.voltage
        = 3234857 / 262144
    ∧ (idleSession.updateValues 1000 1000 okReply).2.currentValues.voltage
        ≠ ((1234 : Nat) : ℚ) / 100
    ∧ (idleSession.updateValues 1000 1000 okReply).2.currentValues.power
        = 4666163 / 131072
    ∧ (idleSession.updateValues 1000 1000 okReply).2.currentValues.power
        ≠ ((0x0064 ||| (0x0001 <<< 8) : Nat) : ℚ) / 10
    ∧ (idleSession.updateValues 1000 1000 okReply).2.currentValues.power ≠ 178 / 5 := by
  have hf : idleSession.cacheFresh 1000 = false := by decide
  have hu := updateValues_of_stale_ok idleSession 1000 1000 okReply hf rfl
  have w0 : (idleSession.node.readInputRegisters 0x0000 7 okReply).2.getResponseBuffer 0
      = 1234 := by decide
  have wc : combine
      ((idleSession.node.readInputRegisters 0x0000 7 okReply).2.getResponseBuffer 2)
      ((idleSession.node.readInputRegisters 0x0000 7 okReply).2.getResponseBuffer 3)
      = 356 := by decide
  have hv : (idleSession.updateValues 1000 1000 okReply).2.currentValues.voltage
      = 3234857 / 262144 := by
    rw [hu]
    simp only [w0]
    rw [toFloat_toDouble_eq (((1234 : Nat) : ℚ) / 100) 3 6946802425218990 12939428
      (by norm_num) (by norm_num) (by norm_num) (by norm_num) (by norm_num)
      (by rw [abs_lt]; constructor <;> norm_num)
      (by rw [abs_lt]; constructor <;> norm_num)]
    norm_num
  have hp : (idleSession.updateValues 1000 1000 okReply).2.currentValues.power
      = 4666163 / 131072 := by
    rw [hu]
    simp only [wc]
    rw [toFloat_toDouble_eq (((356 : Nat) : ℚ) / 10) 5 5010254585449677 9332326
      (by norm_num) (by norm_num) (by norm_num) (by norm_num) (by norm_num)
      (by rw [abs_lt]; constructor <;> norm_num)
      (by rw [abs_lt]; constructor <;> norm_num)]
    norm_num
  have e356 : (0x0064 ||| (0x0001 <<< 8) : Nat) = 356 := by decide
  refine ⟨by rw [hu], hv, ?_, hp, ?_, ?_⟩
  · rw [hv]; norm_num
  · rw [hp, e356]; norm_num
  · rw [hp]; norm_num

/-- C5 (amended). A successful read decodes by the register map, into `float`
members: when the cache is stale at `now` and the bus answers the register read
with success and the seven 16-bit words `ws`, `updateValues` reports success
and leaves voltage, current and power equal to the `double` quotients
`ws[0] / 100`, `ws[1] / 100` and `(ws[2] | (ws[3] << 8)) / 10` narrowed to
`float`, each within a relative error of `2 ^ (-23)` of the exact quotient,
and energy exactly `ws[4] | (ws[5] << 8)` (the high word shifted by 8 bits,
no divisor); `lastRead` is the clock value read when the decode ends (`now`
for a call at one instant) and `lastResult` is success.  The power pair
`0x0064`, `0x0001` decodes to 35.599998474121094, the `float` nearest to 35.6. -/
theorem successful_read_decodes_rounded (s : PZEM017) (now fin : Nat) (ws : List Nat)
    (hstale : (s.lastRead + s.updateInterval) % 2 ^ 64 ≤ now)
    (hlen : ws.length = 7)
    (h16 : ∀ x ∈ ws, x < 65536) :
    (s.updateValues now fin { status := ku8MBSuccess, words := ws }).1 = true
    ∧ (s.updateValues now fin { status := ku8MBSuccess, words := ws }).2.currentValues.voltage
        = toFloat (toDouble ((ws.getD 0 0 : ℚ) / 100))
    ∧ |(s.updateValues now fin { status := ku8MBSuccess, words := ws }).2.currentValues.voltage
          - (ws.getD 0 0 : ℚ) / 100| ≤ (ws.getD 0 0 : ℚ) / 100 / 2 ^ 23
    ∧ (s.updateValues now fin { status := ku8MBSuccess, words := ws }).2.currentValues.current
        = toFloat (toDouble ((ws.getD 1 0 : ℚ) / 100))
    ∧ |(s.updateValues now fin { status := ku8MBSuccess, words := ws }).2.currentValues.current
          - (ws.getD 1 0 : ℚ) / 100| ≤ (ws.getD 1 0 : ℚ) / 100 / 2 ^ 23
    ∧ (s.updateValues now fin { status := ku8MBSuccess, words := ws }).2.currentValues.power
        = toFloat (toDouble (((ws.getD 2 0 ||| (ws.getD 3 0 <<< 8) : Nat) : ℚ) / 10))
    ∧ |(s.updateValues now fin { status := ku8MBSuccess, words := ws }).2.currentValues.power
          - ((ws.getD 2 0 ||| (ws.getD 3 0 <<< 8) : Nat) : ℚ) / 10|
        ≤ ((ws.getD 2 0 ||| (ws.getD 3 0 <<< 8) : Nat) : ℚ) / 10 / 2 ^ 23
    ∧ (s.updateValues now fin { status := ku8MBSuccess, words := ws }).2.currentValues.energy
        = ((ws.getD 4 0 ||| (ws.getD 5 0 <<< 8) : Nat) : ℚ)
    ∧ (s.updateValues now fin { status := ku8MBSuccess, words := ws }).2.lastRead = fin
    ∧ (s.updateValues now now { status := ku8MBSuccess, words := ws }).2.lastRead = now
    ∧ (s.updateValues now fin { status := ku8MBSuccess, words := ws }).2.lastResult
        = ku8MBSuccess
    ∧ (s.updateValues now fin { status := ku8MBSuccess, words := ws }).2.node.calls
        = s.node.calls ++ [Call.readInputRegisters 0x0000 7]
    ∧ (ws.getD 2 0 = 0x0064 → ws.getD 3 0 = 0x0001 →
        (s.updateValues now fin { status := ku8MBSuccess, words := ws }).2.currentValues.power
          = 4666163 / 131072) := by
  have hf : s.cacheFresh now = false := by
    simp only [cacheFresh, decide_eq_false_iff_not]
    omega
  have hb : ∀ i, i < 7 → ws.getD i 0 < 65536 := by
    intro i hi
    have hi7 : i < ws.length := by omega
    rw [List.getD_eq_getElem _ _ hi7]
    exact h16 _ (List.getElem_mem _)
  have hw : ∀ i, i < 7 →
      (s.node.readInputRegisters 0x0000 7 { status := ku8MBSuccess, words := ws }).2.getResponseBuffer i
        = ws.getD i 0 := by
    intro i hi
    exact getResponseBuffer_read_ok _ _ _ _ rfl (by rw [hlen]; exact hi) (by omega) (hb i hi)
  have hv : (s.updateValues now fin { status := ku8MBSuccess, words := ws }).2.currentValues.voltage
      = toFloat (toDouble ((ws.getD 0 0 : ℚ) / 100)) := by
    rw [updateValues_of_stale_ok s now fin _ hf rfl]
    simp only [hw 0 (by omega)]
  have hc : (s.updateValues now fin { status := ku8MBSuccess, words := ws }).2.currentValues.current
      = toFloat (toDouble ((ws.getD 1 0 : ℚ) / 100)) := by
    rw [updateValues_of_stale_ok s now fin _ hf rfl]
    simp only [hw 1 (by omega)]
  have hp : (s.updateValues now fin { status := ku8MBSuccess, words := ws }).2.currentValues.power
      = toFloat (toDouble (((ws.getD 2 0 ||| (ws.getD 3 0 <<< 8) : Nat) : ℚ) / 10)) := by
    rw [updateValues_of_stale_ok s now fin _ hf rfl]
    simp only [hw 2 (by omega), hw 3 (by omega), combine]
  have he : (s.updateValues now fin { status := ku8MBSuccess, words := ws }).2.currentValues.energy
      = ((ws.getD 4 0 ||| (ws.getD 5 0 <<< 8) : Nat) : ℚ) := by
    rw [updateValues_of_stale_ok s now fin _ hf rfl]
    simp only [hw 4 (by omega), hw 5 (by omega)]
    have hlt := combine_lt (ws.getD 4 0) (ws.getD 5 0) (hb 4 (by omega)) (hb 5 (by omega))
    rw [toFloat_natCast _ hlt]
    rfl
  refine ⟨?_, hv, ?_, hc, ?_, hp, ?_, he, ?_, ?_, ?_, ?_, ?_⟩
  · rw [updateValues_of_stale_ok s now fin _ hf rfl]
  · rw [hv]; exact toFloat_toDouble_div_error _ 100 (by norm_num) (by norm_num)
  · rw [hc]; exact toFloat_toDouble_div_error _ 100 (by norm_num) (by norm_num)
  · rw [hp]; exact toFloat_toDouble_div_error _ 10 (by norm_num) (by norm_num)
  · rw [updateValues_of_stale_ok s now fin _ hf rfl]
  · rw [updateValues_of_stale_ok s now now _ hf rfl]
  · rw [updateValues_of_stale_ok s now fin _ hf rfl]
  · exact calls_updateValues_of_stale s now fin _ hf
  · intro h2 h3
    rw [hp, h2, h3]
    have e356 : (0x0064 ||| (0x0001 <<< 8) : Nat) = 356 := by decide
    rw [e356,
      toFloat_toDouble_eq (((356 : Nat) : ℚ) / 10) 5 5010254585449677 9332326
        (by norm_num) (by norm_num) (by norm_num) (by norm_num) (by norm_num)
        (by rw [abs_lt]; constructor <;> norm_num)
        (by rw [abs_lt]; constructor <;> norm_num)]
    norm_num

theorem successful_read_decodes_rounded_witness :
    ((idleSession.lastRead + idleSession.updateInterval) % 2 ^ 64 ≤ 1000
      ∧ okReply.words.length = 7 ∧ ∀ x ∈ okReply.words, x < 65536)
    ∧ (idleSession.updateValues 1000 1000
          { status := ku8MBSuccess, words := okReply.words }).2.currentValues.energy
        = ((okReply.words.getD 4 0 ||| (okReply.words.getD 5 0 <<< 8) : Nat) : ℚ) :=
  ⟨by decide,
   (successful_read_decodes_rounded idleSession 1000 1000 okReply.words
      (by decide) (by decide) (by decide)).2.2.2.2.2.2.2.1⟩

/-- C6 (the code at the failing input). A successful read at clock 1000 whose
power words are low = `0x0000` and high = `0x0001` leaves power =
25.6000003814697265625, the `float` nearest to `(0 | (1 << 8)) / 10 = 25.6`,
not `(0 + 65536 * 1) / 10 = 6553.6` nor the `float` nearest to it: the high
word is shifted by 8 bits, not by 16. -/
theorem power_high_word_shift :
    (idleSession.updateValues 1000 1000 highWordReply).1 = true
    ∧ (idleSession.updateValues 1000 1000 highWordReply).2.currentValues.power
        = 13421773 / 524288
    ∧ (idleSession.updateValues 1000 1000 highWordReply).2.currentValues.power
        ≠ ((0x0000 + 65536 * 0x0001 : Nat) : ℚ) / 10
    ∧ (idleSession.updateValues 1000 1000 highWordReply).2.currentValues.power
        ≠ toFloat (toDouble (((0x0000 + 65536 * 0x0001 : Nat) : ℚ) / 10))
    ∧ |(idleSession.updateValues 1000 1000 highWordReply).2.currentValues.power
          - ((0x0000 ||| (0x0001 <<< 8) : Nat) : ℚ) / 10| ≤ 1 / 1000000
    ∧ (idleSession.power false 1000 1000 highWordReply).1 = some (13421773 / 524288) := by
  have hf : idleSession.cacheFresh 1000 = false := by decide
  have hu := updateValues_of_stale_ok idleSession 1000 1000 highWordReply hf rfl
  have hp : (idleSession.updateValues 1000 1000 highWordReply).2.currentValues.power
      = 13421773 / 524288 := by
    rw [hu]
    have : combine
        ((idleSession.node.readInputRegisters 0x0000 7 highWordReply).2.getResponseBuffer 2)
        ((idleSession.node.readInputRegisters 0x0000 7 highWordReply).2.getResponseBuffer 3)
        = 256 := by decide
    simp only [this]
    rw [toFloat_toDouble_eq (((256 : Nat) : ℚ) / 10) 4 7205759403792794 13421773
      (by norm_num) (by norm_num) (by norm_num) (by norm_num) (by norm_num)
      (by rw [abs_lt]; constructor <;> norm_num)
      (by rw [abs_lt]; constructor <;> norm_num)]
    norm_num
  have e256 : (0x0000 ||| (0x0001 <<< 8) : Nat) = 256 := by decide
  refine ⟨by rw [hu], hp, ?_, ?_, ?_, ?_⟩
  · rw [hp]; norm_num
  · rw [hp]
    intro h
    have herr := toFloat_toDouble_div_error (0x0000 + 65536 * 0x0001) 10
      (by norm_num) (by norm_num)
    rw [← h, abs_le] at herr
    norm_num at herr
  · rw [hp, e256, abs_le]
    constructor <;> norm_num
  · have h1 : (idleSession.updateValues 1000 1000 highWordReply).1 = true := by rw [hu]
    simp only [power, shiftLastRead, Bool.false_eq_true, if_false, h1, Bool.not_true, hp]

/-- C7. Alarm decode: after a successful read the over-voltage flag of the
snapshot is true exactly when response-buffer word 6 is `0xFFFF`, and the
under-voltage flag is true exactly when response-buffer word 7 is `0xFFFF`;
any other word leaves the flag false.  The alarm-status getters hand out these
flags. -/
theorem alarm_decode (s : PZEM017) (now fin : Nat) (r : Reply) (alarm : Bool)
    (hstale : (s.lastRead + s.updateInterval) % 2 ^ 64 ≤ now)
    (hr : r.status = ku8MBSuccess) :
    ((s.updateValues now fin r).2.currentValues.overVoltageAlarm = true
        ↔ (s.updateValues now fin r).2.node.getResponseBuffer
            HOLDING_REGISTER_ALARM_OVERVOLTAGE = 0xFFFF)
    ∧ ((s.updateValues now fin r).2.currentValues.underVoltageAlarm = true
        ↔ (s.updateValues now fin r).2.node.getResponseBuffer
            HOLDING_REGISTER_ALARM_UNDERVOLTAGE = 0xFFFF)
    ∧ ((s.updateValues now fin r).2.currentValues.overVoltageAlarm = false
        ↔ (s.updateValues now fin r).2.node.getResponseBuffer 6 ≠ 0xFFFF)
    ∧ ((s.updateValues now fin r).2.currentValues.underVoltageAlarm = false
        ↔ (s.updateValues now fin r).2.node.getResponseBuffer 7 ≠ 0xFFFF)
    ∧ (s.updateValues now fin r).2.node = (s.node.readInputRegisters 0x0000 7 r).2
    ∧ (s.getOvervoltageAlarmStatus alarm false now fin r).2.1
        = decide ((s.node.readInputRegisters 0x0000 7 r).2.getResponseBuffer 6 = 0xFFFF)
    ∧ (s.getUndervoltageAlarmStatus alarm false now fin r).2.1
        = decide ((s.node.readInputRegisters 0x0000 7 r).2.getResponseBuffer 7 = 0xFFFF) := by
  have hf : s.cacheFresh now = false := by
    simp only [cacheFresh, decide_eq_false_iff_not]
    omega
  have hu := updateValues_of_stale_ok s now fin r hf hr
  refine ⟨?_, ?_, ?_, ?_, ?_, ?_, ?_⟩
  · rw [hu]; simp [HOLDING_REGISTER_ALARM_OVERVOLTAGE]
  · rw [hu]; simp [HOLDING_REGISTER_ALARM_UNDERVOLTAGE]
  · rw [hu]; simp
  · rw [hu]; simp
  · rw [hu]
  · simp [getOvervoltageAlarmStatus, shiftLastRead, hu]
  · simp [getUndervoltageAlarmStatus, shiftLastRead, hu]

theorem alarm_decode_witness :
    ((idleSession.lastRead + idleSession.updateInterval) % 2 ^ 64 ≤ 1000
      ∧ okReply.status = ku8MBSuccess)
    ∧ ((idleSession.updateValues 1000 1000 okReply).2.currentValues.overVoltageAlarm = true
        ↔ (idleSession.updateValues 1000 1000 okReply).2.node.getResponseBuffer
            HOLDING_REGISTER_ALARM_OVERVOLTAGE = 0xFFFF) :=
  ⟨by decide, (alarm_decode idleSession 1000 1000 okReply false (by decide) rfl).1⟩

/-! ## Alarm thresholds -/

/-- Inside the accepted ranges the conversion to `uint16_t` is the floor, and
it stays within 1..350. -/
theorem toUint16_eq_floor (volts : ℚ) (h1 : 1 ≤ volts) (h350 : volts ≤ 350) :
    toUint16 volts = ⌊volts⌋.toNat ∧ 1 ≤ ⌊volts⌋ ∧ ⌊volts⌋ ≤ 350 := by
  have hnum : 0 ≤ volts.num := Rat.num_nonneg.mpr (by linarith)
  have hden : (0 : ℤ) ≤ (volts.den : ℤ) := Int.natCast_nonneg _
  have hfl : Int.tdiv volts.num volts.den = ⌊volts⌋ := by
    rw [Rat.floor_def, Int.tdiv_eq_ediv hnum hden]
  have hlo : (1 : ℤ) ≤ ⌊volts⌋ := Int.le_floor.mpr (by exact_mod_cast h1)
  have hhi : ⌊volts⌋ ≤ (350 : ℤ) := by
    have : ((⌊volts⌋ : ℤ) : ℚ) ≤ 350 := le_trans (Int.floor_le volts) h350
    exact_mod_cast this
  refine ⟨?_, hlo, hhi⟩
  unfold toUint16
  rw [hfl]
  apply Nat.mod_eq_of_lt
  omega

theorem setUndervoltageAlarm_reject (s : PZEM017) (volts : ℚ) (r : Reply)
    (h : volts < 1 ∨ 350 < volts) :
    s.setUndervoltageAlarm volts r
      = (false, { s with lastResult := ku8MBIllegalDataValue }) := by
  simp [setUndervoltageAlarm, h]

theorem setUndervoltageAlarm_accept (s : PZEM017) (volts : ℚ) (r : Reply)
    (h1 : 1 ≤ volts) (h350 : volts ≤ 350) :
    s.setUndervoltageAlarm volts r
      = (decide (r.status = ku8MBSuccess),
         { s with
           node :=
             { s.node with
               calls := s.node.calls
                 ++ [Call.writeSingleRegister WRITE_REGISTER_ALARM_UNDERVOLTAGE (toUint16 volts)] }
           lastResult := r.status }) := by
  have h : ¬ (volts < 1 ∨ 350 < volts) := by
    rintro (h | h) <;> linarith
  simp [setUndervoltageAlarm, h, writeSingleRegister]

theorem setOvervoltageAlarm_reject (s : PZEM017) (volts : ℚ) (r : Reply)
    (h : volts < 5 ∨ 350 < volts) :
    s.setOvervoltageAlarm volts r
      = (false, { s with lastResult := ku8MBIllegalDataValue }) := by
  simp [setOvervoltageAlarm, h]

theorem setOvervoltageAlarm_accept (s : PZEM017) (volts : ℚ) (r : Reply)
    (h5 : 5 ≤ volts) (h350 : volts ≤ 350) :
    s.setOvervoltageAlarm volts r
      = (decide (r.status = ku8MBSuccess),
         { s with
           node :=
             { s.node with
               calls := s.node.calls
                 ++ [Call.writeSingleRegister WRITE_REGISTER_ALARM_OVERVOLTAGE (toUint16 volts)] }
           lastResult := r.status }) := by
  have h : ¬ (volts < 5 ∨ 350 < volts) := by
    rintro (h | h) <;> linarith
  simp [setOvervoltageAlarm, h, writeSingleRegister]

/-- C8. Alarm-threshold validation: `setUndervoltageAlarm volts` with `volts < 1`
or `volts > 350` returns false, sets `lastResult` to the illegal-data-value code
and leaves the rest of the session, the request log included, as it was; with
`1 ≤ volts ≤ 350` it issues exactly one single-register write, returns true iff
the transport status is success and stores that status in `lastResult`.
`setOvervoltageAlarm` does the same with the range 5..350.  So 0.99 and 4.99
are rejected, and 1.0, 5.0 and 350.0 are accepted. -/
theorem alarm_threshold_validation (s : PZEM017) (volts : ℚ) (r : Reply) :
    (volts < 1 ∨ 350 < volts →
        s.setUndervoltageAlarm volts r
            = (false, { s with lastResult := ku8MBIllegalDataValue })
        ∧ (s.setUndervoltageAlarm volts r).2.node.calls = s.node.calls)
    ∧ (1 ≤ volts → volts ≤ 350 →
        ((s.setUndervoltageAlarm volts r).1 = true ↔ r.status = ku8MBSuccess)
        ∧ (s.setUndervoltageAlarm volts r).2.lastResult = r.status
        ∧ ∃ v, (s.setUndervoltageAlarm volts r).2.node.calls
            = s.node.calls ++ [Call.writeSingleRegister 0x0001 v])
    ∧ (volts < 5 ∨ 350 < volts →
        s.setOvervoltageAlarm volts r
            = (false, { s with lastResult := ku8MBIllegalDataValue })
        ∧ (s.setOvervoltageAlarm volts r).2.node.calls = s.node.calls)
    ∧ (5 ≤ volts → volts ≤ 350 →
        ((s.setOvervoltageAlarm volts r).1 = true ↔ r.status = ku8MBSuccess)
        ∧ (s.setOvervoltageAlarm volts r).2.lastResult = r.status
        ∧ ∃ v, (s.setOvervoltageAlarm volts r).2.node.calls
            = s.node.calls ++ [Call.writeSingleRegister 0x0000 v])
    ∧ (s.setUndervoltageAlarm (99 / 100) r).1 = false
    ∧ (s.setUndervoltageAlarm (99 / 100) r).2.node.calls = s.node.calls
    ∧ (s.setOvervoltageAlarm (499 / 100) r).1 = false
    ∧ (s.setOvervoltageAlarm (499 / 100) r).2.node.calls = s.node.calls
    ∧ (s.setUndervoltageAlarm 1 r).1 = decide (r.status = ku8MBSuccess)
    ∧ (s.setUndervoltageAlarm 350 r).1 = decide (r.status = ku8MBSuccess)
    ∧ (s.setOvervoltageAlarm 5 r).1 = decide (r.status = ku8MBSuccess)
    ∧ (s.setOvervoltageAlarm 350 r).1 = decide (r.status = ku8MBSuccess) := by
  refine ⟨?_, ?_, ?_, ?_, ?_, ?_, ?_, ?_, ?_, ?_, ?_, ?_⟩
  · intro h
    rw [setUndervoltageAlarm_reject s volts r h]
    exact ⟨rfl, rfl⟩
  · intro h1 h350
    rw [setUndervoltageAlarm_accept s volts r h1 h350]
    exact ⟨by simp, rfl, toUint16 volts, rfl⟩
  · intro h
    rw [setOvervoltageAlarm_reject s volts r h]
    exact ⟨rfl, rfl⟩
  · intro h5 h350
    rw [setOvervoltageAlarm_accept s volts r h5 h350]
    exact ⟨by simp, rfl, toUint16 volts, rfl⟩
  · rw [setUndervoltageAlarm_reject s _ r (by norm_num)]
  · rw [setUndervoltageAlarm_reject s _ r (by norm_num)]
  · rw [setOvervoltageAlarm_reject s _ r (by norm_num)]
  · rw [setOvervoltageAlarm_reject s _ r (by norm_num)]
  · rw [setUndervoltageAlarm_accept s _ r (by norm_num) (by norm_num)]
  · rw [setUndervoltageAlarm_accept s _ r (by norm_num) (by norm_num)]
  · rw [setOvervoltageAlarm_accept s _ r (by norm_num) (by norm_num)]
  · rw [setOvervoltageAlarm_accept s _ r (by norm_num) (by norm_num)]

theorem alarm_threshold_validation_witness :
    (((99 : ℚ) / 100 < 1 ∨ 350 < (99 : ℚ) / 100)
      ∧ idleSession.setUndervoltageAlarm (99 / 100) timeoutReply
          = (false, { idleSession with lastResult := ku8MBIllegalDataValue }))
    ∧ ((5 : ℚ) ≤ 7 ∧ (7 : ℚ) ≤ 350
      ∧ (idleSession.setOvervoltageAlarm 7 okReply).2.lastResult = okReply.status) :=
  ⟨⟨by norm_num,
    ((alarm_threshold_validation idleSession (99 / 100) timeoutReply).1 (by norm_num)).1⟩,
   by norm_num, by norm_num,
   ((alarm_threshold_validation idleSession 7 okReply).2.2.2.1
      (by norm_num) (by norm_num)).2.1⟩

/-- C9. Truncating threshold write: for an accepted threshold the 16-bit value
handed to the transport is `floor volts` (the fraction is dropped, never
rounded up), it lies in the accepted integer range, so below 65536, and it is
written to register `0x0001` for the under-voltage threshold (range 1..350) and
to register `0x0000` for the over-voltage threshold (range 5..350). -/
theorem threshold_write_truncates (s : PZEM017) (volts : ℚ) (r : Reply) :
    (1 ≤ volts → volts ≤ 350 →
        (s.setUndervoltageAlarm volts r).2.node.calls
            = s.node.calls ++ [Call.writeSingleRegister 0x0001 ⌊volts⌋.toNat]
        ∧ 1 ≤ ⌊volts⌋.toNat ∧ ⌊volts⌋.toNat ≤ 350 ∧ ⌊volts⌋.toNat < 65536
        ∧ (⌊volts⌋.toNat : ℚ) ≤ volts ∧ volts < (⌊volts⌋.toNat : ℚ) + 1)
    ∧ (5 ≤ volts → volts ≤ 350 →
        (s.setOvervoltageAlarm volts r).2.node.calls
            = s.node.calls ++ [Call.writeSingleRegister 0x0000 ⌊volts⌋.toNat]
        ∧ 5 ≤ ⌊volts⌋.toNat ∧ ⌊volts⌋.toNat ≤ 350 ∧ ⌊volts⌋.toNat < 65536
        ∧ (⌊volts⌋.toNat : ℚ) ≤ volts ∧ volts < (⌊volts⌋.toNat : ℚ) + 1) := by
  have key : 1 ≤ volts → volts ≤ 350 →
      toUint16 volts = ⌊volts⌋.toNat ∧ 1 ≤ ⌊volts⌋.toNat ∧ ⌊volts⌋.toNat ≤ 350
      ∧ (⌊volts⌋.toNat : ℚ) ≤ volts ∧ volts < (⌊volts⌋.toNat : ℚ) + 1 := by
    intro h1 h350
    obtain ⟨hc, hlo, hhi⟩ := toUint16_eq_floor volts h1 h350
    have hcast : ((⌊volts⌋.toNat : ℕ) : ℚ) = ((⌊volts⌋ : ℤ) : ℚ) := by
      have : ((⌊volts⌋.toNat : ℕ) : ℤ) = ⌊volts⌋ := Int.toNat_of_nonneg (by omega)
      exact_mod_cast congrArg (fun z : ℤ => (z : ℚ)) this
    refine ⟨hc, by omega, by omega, ?_, ?_⟩
    · rw [hcast]; exact Int.floor_le volts
    · rw [hcast]; exact Int.lt_floor_add_one volts
  constructor
  · intro h1 h350
    obtain ⟨hc, hlo, hhi, hle, hlt⟩ := key h1 h350
    rw [setUndervoltageAlarm_accept s volts r h1 h350, hc]
    exact ⟨rfl, hlo, hhi, by omega, hle, hlt⟩
  · intro h5 h350
    obtain ⟨hc, _, hhi, hle, hlt⟩ := key (by linarith) h350
    have h5f : (5 : ℤ) ≤ ⌊volts⌋ := Int.le_floor.mpr (by exact_mod_cast h5)
    rw [setOvervoltageAlarm_accept s volts r h5 h350, hc]
    exact ⟨rfl, by omega, hhi, by omega, hle, hlt⟩

theorem threshold_write_truncates_witness :
    ((1 : ℚ) ≤ 699 / 100 ∧ (699 : ℚ) / 100 ≤ 350
      ∧ (idleSession.setUndervoltageAlarm (699 / 100) okReply).2.node.calls
          = idleSession.node.calls ++ [Call.writeSingleRegister 0x0001 ⌊(699 : ℚ) / 100⌋.toNat])
    ∧ ((5 : ℚ) ≤ 699 / 100 ∧ (699 : ℚ) / 100 ≤ 350
      ∧ (idleSession.setOvervoltageAlarm (699 / 100) okReply).2.node.calls
          = idleSession.node.calls ++ [Call.writeSingleRegister 0x0000 ⌊(699 : ℚ) / 100⌋.toNat]) :=
  ⟨⟨by norm_num, by norm_num,
    ((threshold_write_truncates idleSession (699 / 100) okReply).1
      (by norm_num) (by norm_num)).1⟩,
   by norm_num, by norm_num,
   ((threshold_write_truncates idleSession (699 / 100) okReply).2
      (by norm_num) (by norm_num)).1⟩

/-- C10 (the code at the failing input). The thresholds 1.00 V and 1.50 V are
both accepted by `setUndervoltageAlarm` and differ by more than 0.01 V, and
the request issued is the same for both: register `0x0001` is written with 1.
Likewise `setOvervoltageAlarm` writes 5 to register `0x0000` for both 5.00 V
and 5.99 V. -/
theorem threshold_resolution_is_one_volt (s : PZEM017) (r : Reply) :
    (s.setUndervoltageAlarm 1 r).2.node.calls
        = s.node.calls ++ [Call.writeSingleRegister 0x0001 1]
    ∧ (s.setUndervoltageAlarm (3 / 2) r).2.node.calls
        = s.node.calls ++ [Call.writeSingleRegister 0x0001 1]
    ∧ (s.setUndervoltageAlarm 1 r).2 = (s.setUndervoltageAlarm (3 / 2) r).2
    ∧ (s.setOvervoltageAlarm 5 r).2.node.calls
        = s.node.calls ++ [Call.writeSingleRegister 0x0000 5]
    ∧ (s.setOvervoltageAlarm (599 / 100) r).2.node.calls
        = s.node.calls ++ [Call.writeSingleRegister 0x0000 5]
    ∧ (1 : ℚ) / 100 ≤ 3 / 2 - 1 ∧ (1 : ℚ) / 100 ≤ 599 / 100 - 5 := by
  have f1 : ⌊(1 : ℚ)⌋.toNat = 1 := by simp
  have f2 : ⌊(3 : ℚ) / 2⌋.toNat = 1 := by
    have : ⌊(3 : ℚ) / 2⌋ = 1 := by rw [Int.floor_eq_iff]; norm_num
    rw [this]; rfl
  have f3 : ⌊(5 : ℚ)⌋.toNat = 5 := by
    have : ⌊(5 : ℚ)⌋ = 5 := by rw [Int.floor_eq_iff]; norm_num
    rw [this]; rfl
  have f4 : ⌊(599 : ℚ) / 100⌋.toNat = 5 := by
    have : ⌊(599 : ℚ) / 100⌋ = 5 := by rw [Int.floor_eq_iff]; norm_num
    rw [this]; rfl
  have u1 := (toUint16_eq_floor 1 (by norm_num) (by norm_num)).1
  have u2 := (toUint16_eq_floor (3 / 2) (by norm_num) (by norm_num)).1
  have u3 := (toUint16_eq_floor 5 (by norm_num) (by norm_num)).1
  have u4 := (toUint16_eq_floor (599 / 100) (by norm_num) (by norm_num)).1
  rw [f1] at u1
  rw [f2] at u2
  rw [f3] at u3
  rw [f4] at u4
  rw [setUndervoltageAlarm_accept s 1 r (by norm_num) (by norm_num),
    setUndervoltageAlarm_accept s (3 / 2) r (by norm_num) (by norm_num),
    setOvervoltageAlarm_accept s 5 r (by norm_num) (by norm_num),
    setOvervoltageAlarm_accept s (599 / 100) r (by norm_num) (by norm_num),
    u1, u2, u3, u4]
  refine ⟨rfl, rfl, rfl, rfl, rfl, by norm_num, by norm_num⟩

/-! ## Addressing -/

/-- C11. Address mutation independence: whatever `newAddress` is and whatever
the bus answers, so whether `setAddress` is rejected, fails on the transport or
succeeds, `getAddress` returns afterwards what it returned before; a
`setSlaveAddress` that succeeds is what changes it. -/
theorem setAddress_keeps_getAddress (s : PZEM017) (newAddress : Nat) (r : Reply) (a : Nat) :
    (s.setAddress newAddress r).2.getAddress = s.getAddress
    ∧ ((s.setSlaveAddress a).1 = true → (s.setSlaveAddress a).2.getAddress = a)
    ∧ ((s.setAddress newAddress r).2.setSlaveAddress a).1 = (s.setSlaveAddress a).1 := by
  refine ⟨?_, ?_, ?_⟩
  · unfold setAddress
    split <;> rfl
  · unfold setSlaveAddress
    split
    · intro h; exact absurd h (by simp)
    · intro _; rfl
  · unfold setSlaveAddress
    split <;> rfl

theorem setAddress_keeps_getAddress_witness :
    (idleSession.setSlaveAddress 2).1 = true
    ∧ (idleSession.setSlaveAddress 2).2.getAddress = 2
    ∧ (idleSession.setAddress 2 okReply).2.getAddress = idleSession.getAddress :=
  ⟨by decide,
   (setAddress_keeps_getAddress idleSession 2 okReply 2).2.1 (by decide),
   (setAddress_keeps_getAddress idleSession 2 okReply 2).1⟩

/-- C12 (the code at the failing input). With the session operating on slave
address 1, `setAddress 2` answered with success returns true, and `getAddress`
still returns 1, not 2. -/
theorem setAddress_success_keeps_old_address :
    idleSession.getAddress = 1
    ∧ (idleSession.setAddress 0x0002 okReply).1 = true
    ∧ (idleSession.setAddress 0x0002 okReply).2.node.calls
        = [Call.writeSingleRegister 0x0002 0x0002]
    ∧ (idleSession.setAddress 0x0002 okReply).2.getAddress = 1
    ∧ (idleSession.setAddress 0x0002 okReply).2.getAddress ≠ 0x0002 := by
  decide

/-- C13. Address validation: `setSlaveAddress addr` returns true iff
`0x01 ≤ addr ≤ 0xF7`; when it returns true `getAddress` is `addr` afterwards,
when it returns false `getAddress` is unchanged and `lastResult` is the
invalid-slave-id code, and in both cases the node, request log included, is
untouched.  `setAddress addr` logs one write of `addr` to register `0x0002`
when `0x0001 ≤ addr ≤ 0x00F7`, and otherwise returns false with `lastResult` =
invalid slave id and an unchanged request log. -/
theorem address_validation (s : PZEM017) (addr : Nat) (r : Reply) :
    ((s.setSlaveAddress addr).1 = true ↔ 0x01 ≤ addr ∧ addr ≤ 0xf7)
    ∧ ((s.setSlaveAddress addr).1 = true →
        (s.setSlaveAddress addr).2.getAddress = addr
        ∧ (s.setSlaveAddress addr).2.node = s.node)
    ∧ ((s.setSlaveAddress addr).1 = false →
        (s.setSlaveAddress addr).2.getAddress = s.getAddress
        ∧ (s.setSlaveAddress addr).2.getLastOperationResult = ku8MBInvalidSlaveID
        ∧ (s.setSlaveAddress addr).2.node = s.node)
    ∧ (0x0001 ≤ addr ∧ addr ≤ 0x00f7 →
        (s.setAddress addr r).2.node.calls
          = s.node.calls ++ [Call.writeSingleRegister 0x0002 addr])
    ∧ (¬ (0x0001 ≤ addr ∧ addr ≤ 0x00f7) →
        (s.setAddress addr r).1 = false
        ∧ (s.setAddress addr r).2.getLastOperationResult = ku8MBInvalidSlaveID
        ∧ (s.setAddress addr r).2.node.calls = s.node.calls) := by
  by_cases h : addr < 0x01 ∨ addr > 0xf7
  · have hn : ¬ (0x01 ≤ addr ∧ addr ≤ 0xf7) := by omega
    have e1 : s.setSlaveAddress addr
        = (false, { s with lastResult := ku8MBInvalidSlaveID }) := by
      unfold setSlaveAddress
      rw [if_pos h]
    have e2 : s.setAddress addr r
        = (false, { s with lastResult := ku8MBInvalidSlaveID }) := by
      unfold setAddress
      rw [if_pos h]
    rw [e1, e2]
    simp [getAddress, getLastOperationResult, hn]
  · have hn : 0x01 ≤ addr ∧ addr ≤ 0xf7 := by omega
    have e1 : s.setSlaveAddress addr = (true, { s with slaveAddress := addr }) := by
      unfold setSlaveAddress
      rw [if_neg h]
    have e2 : (s.setAddress addr r).2.node.calls
        = s.node.calls ++ [Call.writeSingleRegister 0x0002 addr] := by
      unfold setAddress
      rw [if_neg h]
      rfl
    rw [e1]
    simp [getAddress, hn, e2]

theorem address_validation_witness :
    ((idleSession.setSlaveAddress 0xf7).1 = true
      ∧ (idleSession.setSlaveAddress 0xf7).2.getAddress = 0xf7)
    ∧ ((idleSession.setSlaveAddress 0xf8).1 = false
      ∧ (idleSession.setSlaveAddress 0xf8).2.getAddress = idleSession.getAddress)
    ∧ ((0x0001 ≤ 0x00f7 ∧ 0x00f7 ≤ 0x00f7)
      ∧ (idleSession.setAddress 0x00f7 okReply).2.node.calls
          = idleSession.node.calls ++ [Call.writeSingleRegister 0x0002 0x00f7])
    ∧ (¬ (0x0001 ≤ 0 ∧ 0 ≤ 0x00f7)
      ∧ (idleSession.setAddress 0 okReply).1 = false) :=
  ⟨⟨by decide, ((address_validation idleSession 0xf7 okReply).2.1 (by decide)).1⟩,
   ⟨by decide, ((address_validation idleSession 0xf8 okReply).2.2.1 (by decide)).1⟩,
   ⟨by decide, (address_validation idleSession 0xf7 okReply).2.2.2.1 (by decide)⟩,
   ⟨by decide, ((address_validation idleSession 0 okReply).2.2.2.2 (by decide)).1⟩⟩

/-- The cache policy never touches the slave address or the update interval. -/
theorem updateValues_frame (s : PZEM017) (now fin : Nat) (r : Reply) :
    (s.updateValues now fin r).2.slaveAddress = s.slaveAddress
    ∧ (s.updateValues now fin r).2.updateInterval = s.updateInterval := by
  cases hf : s.cacheFresh now with
  | true => rw [updateValues_of_fresh s now fin r hf]; exact ⟨rfl, rfl⟩
  | false =>
    by_cases hr : r.status = ku8MBSuccess
    · rw [updateValues_of_stale_ok s now fin r hf hr]; exact ⟨rfl, rfl⟩
    · rw [updateValues_of_stale_fail s now fin r hf hr]; exact ⟨rfl, rfl⟩

theorem beginAddresses_cons (o : Op) (ops : List Op) :
    beginAddresses (o :: ops) = beginAddresses [o] ++ beginAddresses ops := by
  cases o <;> simp [beginAddresses]

theorem run_cons (o : Op) (ops : List Op) (s : PZEM017) :
    run (o :: ops) s = run ops (o.apply s) := rfl

/-- One public call leaves the slave address valid, or equal to the address
given to `begin` if the call is one, or as it was. -/
theorem slaveAddress_apply (o : Op) (s : PZEM017) :
    validAddress (o.apply s).slaveAddress
    ∨ (o.apply s).slaveAddress ∈ beginAddresses [o]
    ∨ (o.apply s).slaveAddress = s.slaveAddress := by
  cases o with
  | begin a => right; left; simp [Op.apply, begin, beginAddresses]
  | beginNode n a => right; left; simp [Op.apply, beginNode, beginAddresses]
  | getter g alarm f now fin r =>
    right; right
    simp only [Op.apply, after_eq_updateValues]
    rw [(updateValues_frame _ now fin r).1]
    cases f <;> rfl
  | resetEnergy r =>
    right; right
    simp only [Op.apply, resetEnergy]
    split <;> rfl
  | setSlaveAddress a =>
    by_cases h : a < 0x01 ∨ a > 0xf7
    · right; right
      simp only [Op.apply, setSlaveAddress, if_pos h]
    · left
      simp only [Op.apply, setSlaveAddress, if_neg h, validAddress]
      omega
  | setAddress a r =>
    right; right
    simp only [Op.apply, setAddress]
    split <;> rfl
  | getAddress => right; right; rfl
  | setCurrentRange range r => right; right; rfl
  | getCurrentRange r => right; right; rfl
  | setUndervoltageAlarm volts r =>
    right; right
    simp only [Op.apply, setUndervoltageAlarm]
    split <;> rfl
  | setOvervoltageAlarm volts r =>
    right; right
    simp only [Op.apply, setOvervoltageAlarm]
    split <;> rfl
  | getLastOperationResult => right; right; rfl
  | getLastOperationResultString => right; right; rfl
  | setUpdateInterval d now => right; right; rfl

theorem slaveAddress_run (ops : List Op) (s : PZEM017) :
    validAddress (run ops s).slaveAddress
    ∨ (run ops s).slaveAddress ∈ beginAddresses ops
    ∨ (run ops s).slaveAddress = s.slaveAddress := by
  induction ops generalizing s with
  | nil => right; right; rfl
  | cons o ops ih =>
    rw [run_cons, beginAddresses_cons]
    rcases ih (o.apply s) with h | h | h
    · left; exact h
    · right; left; exact List.mem_append_right _ h
    · rw [h]
      rcases slaveAddress_apply o s with h1 | h1 | h1
      · left; exact h1
      · right; left; exact List.mem_append_left _ h1
      · right; right; exact h1

/-- C14 (counterexample). A session bound by `begin` with the default address
`PZEM_DEFAULT_ADDR` and then used for a read and a threshold write has slave
address `0xF8`, which is outside `0x01 .. 0xF7`. -/
theorem default_address_out_of_range :
    (run [Op.begin PZEM_DEFAULT_ADDR,
          Op.getter Getter.voltage false false 1000 1000 okReply,
          Op.setOvervoltageAlarm 300 okReply] idleSession).getAddress = 0xF8
    ∧ ¬ (0x01 ≤ (run [Op.begin PZEM_DEFAULT_ADDR,
          Op.getter Getter.voltage false false 1000 1000 okReply,
          Op.setOvervoltageAlarm 300 okReply] idleSession).getAddress
        ∧ (run [Op.begin PZEM_DEFAULT_ADDR,
          Op.getter Getter.voltage false false 1000 1000 okReply,
          Op.setOvervoltageAlarm 300 okReply] idleSession).getAddress ≤ 0xF7) := by
  have h : (run [Op.begin PZEM_DEFAULT_ADDR,
      Op.getter Getter.voltage false false 1000 1000 okReply,
      Op.setOvervoltageAlarm 300 okReply] idleSession).getAddress = 0xF8 := by
    have e : ∀ s : PZEM017, (s.setOvervoltageAlarm 300 okReply).2.slaveAddress
        = s.slaveAddress := by
      intro s
      rw [setOvervoltageAlarm_accept s 300 okReply (by norm_num) (by norm_num)]
    simp only [run, List.foldl, Op.apply, getAddress, e, after_eq_updateValues,
      (updateValues_frame _ _ _ _).1]
    rfl
  rw [h]
  exact ⟨rfl, by omega⟩

/-- C14 (amended). In every session state reached from a `begin` call (either
overload, any address argument) by any sequence of public calls, the slave
address lies in `0x01 .. 0xF7` or is the address argument of a `begin` call of
the trace; so it lies in the range whenever every `begin` of the trace was
given an address in the range. -/
theorem slave_address_invariant (s0 : PZEM017) (a : Nat) (node : ModbusMaster)
    (ops : List Op) :
    (validAddress (run (Op.begin a :: ops) s0).getAddress
      ∨ (run (Op.begin a :: ops) s0).getAddress ∈ beginAddresses (Op.begin a :: ops))
    ∧ (validAddress (run (Op.beginNode node a :: ops) s0).getAddress
      ∨ (run (Op.beginNode node a :: ops) s0).getAddress
          ∈ beginAddresses (Op.beginNode node a :: ops))
    ∧ ((∀ b ∈ beginAddresses (Op.begin a :: ops), validAddress b) →
        validAddress (run (Op.begin a :: ops) s0).getAddress)
    ∧ ((∀ b ∈ beginAddresses (Op.beginNode node a :: ops), validAddress b) →
        validAddress (run (Op.beginNode node a :: ops) s0).getAddress) := by
  have key : ∀ o : Op, (o.apply s0).slaveAddress ∈ beginAddresses [o] →
      validAddress (run (o :: ops) s0).getAddress
        ∨ (run (o :: ops) s0).getAddress ∈ beginAddresses (o :: ops) := by
    intro o ho
    rw [run_cons, beginAddresses_cons]
    rcases slaveAddress_run ops (o.apply s0) with h | h | h
    · left; exact h
    · right; exact List.mem_append_right _ h
    · right
      simp only [getAddress, h]
      exact List.mem_append_left _ ho
  have k1 := key (Op.begin a) (by simp [Op.apply, begin, beginAddresses])
  have k2 := key (Op.beginNode node a) (by simp [Op.apply, beginNode, beginAddresses])
  refine ⟨k1, k2, ?_, ?_⟩
  · intro hall
    rcases k1 with h | h
    · exact h
    · exact hall _ h
  · intro hall
    rcases k2 with h | h
    · exact h
    · exact hall _ h

theorem slave_address_invariant_witness :
    (∀ b ∈ beginAddresses
        [Op.begin 0x01, Op.setSlaveAddress 0xf8, Op.setAddress 0x10 okReply], validAddress b)
    ∧ validAddress
        (run [Op.begin 0x01, Op.setSlaveAddress 0xf8, Op.setAddress 0x10 okReply]
          idleSession).getAddress :=
  ⟨by decide,
   (slave_address_invariant idleSession 0x01 freshNode
      [Op.setSlaveAddress 0xf8, Op.setAddress 0x10 okReply]).2.2.1 (by decide)⟩

/-! ## Energy reset and the last-result slot -/

/-- C15. Energy reset: `resetEnergy` logs exactly one request, the vendor
command `0x42`, and no register read; `lastResult` is the command's status; on
success it returns true, the cached energy is 0 and voltage, current, power,
both alarm flags and `lastRead` are unchanged; on any other status it returns
false and the whole snapshot is unchanged. -/
theorem reset_energy_optimism (s : PZEM017) (r : Reply) :
    (s.resetEnergy r).2.node.calls
        = s.node.calls ++ [Call.arbitraryCommandNoParameters 0x42 4]
    ∧ transportReads (s.resetEnergy r).2.node.calls = transportReads s.node.calls
    ∧ (s.resetEnergy r).2.getLastOperationResult = r.status
    ∧ (s.resetEnergy r).2.lastRead = s.lastRead
    ∧ (r.status = ku8MBSuccess →
        (s.resetEnergy r).1 = true
        ∧ (s.resetEnergy r).2.currentValues.energy = 0
        ∧ (s.resetEnergy r).2.currentValues.voltage = s.currentValues.voltage
        ∧ (s.resetEnergy r).2.currentValues.current = s.currentValues.current
        ∧ (s.resetEnergy r).2.currentValues.power = s.currentValues.power
        ∧ (s.resetEnergy r).2.currentValues.underVoltageAlarm
            = s.currentValues.underVoltageAlarm
        ∧ (s.resetEnergy r).2.currentValues.overVoltageAlarm
            = s.currentValues.overVoltageAlarm)
    ∧ (r.status ≠ ku8MBSuccess →
        (s.resetEnergy r).1 = false
        ∧ (s.resetEnergy r).2.currentValues = s.currentValues) := by
  by_cases hr : r.status = ku8MBSuccess
  · simp [resetEnergy, arbitraryCommandNoParameters, hr, getLastOperationResult,
      transportReads, COMMAND_RESET_ENERGY]
  · simp [resetEnergy, arbitraryCommandNoParameters, hr, getLastOperationResult,
      transportReads, COMMAND_RESET_ENERGY]

theorem reset_energy_optimism_witness :
    (okReply.status = ku8MBSuccess
      ∧ (idleSession.resetEnergy okReply).2.currentValues.energy = 0)
    ∧ (timeoutReply.status ≠ ku8MBSuccess
      ∧ (idleSession.resetEnergy timeoutReply).2.currentValues = idleSession.currentValues) :=
  ⟨⟨rfl, ((reset_energy_optimism idleSession okReply).2.2.2.2.1 rfl).2.1⟩,
   ⟨by decide, ((reset_energy_optimism idleSession timeoutReply).2.2.2.2.2 (by decide)).2⟩⟩

theorem ok_eq_updateValues (g : Getter) (s : PZEM017) (alarm f : Bool) (now fin : Nat)
    (r : Reply) :
    g.ok s alarm f now fin r = ((s.shiftLastRead f).updateValues now fin r).1 := by
  cases g <;>
    simp only [Getter.ok, PZEM017.voltage, PZEM017.current, PZEM017.power, PZEM017.energy,
      PZEM017.getUndervoltageAlarmStatus, PZEM017.getOvervoltageAlarmStatus] <;>
    cases ((s.shiftLastRead f).updateValues now fin r).1 <;> rfl

/-- C16 (counterexample). After a rejected `setAddress 0` has left the
invalid-slave-id code in `lastResult`, a `voltage` call served from the cache
returns a value (not `NAN`) and a `setSlaveAddress 5` returns true, and after
either of them `getLastOperationResult` still returns the invalid-slave-id code,
not success. -/
theorem success_keeps_stale_result :
    (idleSession.setAddress 0 okReply).2.getLastOperationResult = ku8MBInvalidSlaveID
    ∧ Getter.voltage.ok (idleSession.setAddress 0 okReply).2 false false 500 500 okReply = true
    ∧ ((idleSession.setAddress 0 okReply).2.voltage false 500 500 okReply).2.getLastOperationResult
        = ku8MBInvalidSlaveID
    ∧ ((idleSession.setAddress 0 okReply).2.setSlaveAddress 5).1 = true
    ∧ ((idleSession.setAddress 0 okReply).2.setSlaveAddress 5).2.getLastOperationResult
        = ku8MBInvalidSlaveID
    ∧ ku8MBInvalidSlaveID ≠ ku8MBSuccess := by
  have hf : ((idleSession.setAddress 0 okReply).2.shiftLastRead false).cacheFresh 500 = true := by
    decide
  have hu := updateValues_of_fresh _ 500 500 okReply hf
  refine ⟨by decide, ?_, ?_, by decide, by decide, by decide⟩
  · rw [ok_eq_updateValues, hu]
  · have e := after_eq_updateValues Getter.voltage (idleSession.setAddress 0 okReply).2
      false false 500 500 okReply
    simp only [Getter.after] at e
    rw [e, hu]
    decide

/-- C16 (amended). Every call that reaches the transport stores the status of
that transaction in `lastResult`: a getter whose cache test (after the forced
shift, if any) finds the cache stale, `resetEnergy`, `setCurrentRange`, and
`setAddress`, `setUndervoltageAlarm` and `setOvervoltageAlarm` with an argument
in range; a call rejected by local validation stores the validation code.  So
when one of these calls reports success, `lastResult` is the success code.  A
getter served from the cache reports success and leaves `lastResult` as it
was, and so does a `setSlaveAddress` that returns true. -/
theorem last_result_propagation (s : PZEM017) (g : Getter) (alarm f : Bool)
    (now fin : Nat) (r : Reply) (a range : Nat) (volts : ℚ) :
    ((s.shiftLastRead f).cacheFresh now = false →
        (g.after s alarm f now fin r).getLastOperationResult = r.status
        ∧ (g.ok s alarm f now fin r = true →
            (g.after s alarm f now fin r).getLastOperationResult = ku8MBSuccess))
    ∧ ((s.shiftLastRead f).cacheFresh now = true →
        g.ok s alarm f now fin r = true
        ∧ (g.after s alarm f now fin r).getLastOperationResult = s.getLastOperationResult)
    ∧ (s.resetEnergy r).2.getLastOperationResult = r.status
    ∧ ((s.resetEnergy r).1 = true →
        (s.resetEnergy r).2.getLastOperationResult = ku8MBSuccess)
    ∧ ((s.setSlaveAddress a).1 = false →
        (s.setSlaveAddress a).2.getLastOperationResult = ku8MBInvalidSlaveID)
    ∧ ((s.setSlaveAddress a).1 = true →
        (s.setSlaveAddress a).2.getLastOperationResult = s.getLastOperationResult)
    ∧ (¬ validAddress a →
        (s.setAddress a r).1 = false
        ∧ (s.setAddress a r).2.getLastOperationResult = ku8MBInvalidSlaveID)
    ∧ (validAddress a → (s.setAddress a r).2.getLastOperationResult = r.status)
    ∧ ((s.setAddress a r).1 = true →
        (s.setAddress a r).2.getLastOperationResult = ku8MBSuccess)
    ∧ (s.setCurrentRange range r).2.getLastOperationResult = r.status
    ∧ ((s.setCurrentRange range r).1 = true →
        (s.setCurrentRange range r).2.getLastOperationResult = ku8MBSuccess)
    ∧ (volts < 1 ∨ 350 < volts →
        (s.setUndervoltageAlarm volts r).2.getLastOperationResult = ku8MBIllegalDataValue)
    ∧ (1 ≤ volts → volts ≤ 350 →
        (s.setUndervoltageAlarm volts r).2.getLastOperationResult = r.status)
    ∧ ((s.setUndervoltageAlarm volts r).1 = true →
        (s.setUndervoltageAlarm volts r).2.getLastOperationResult = ku8MBSuccess)
    ∧ (volts < 5 ∨ 350 < volts →
        (s.setOvervoltageAlarm volts r).2.getLastOperationResult = ku8MBIllegalDataValue)
    ∧ (5 ≤ volts → volts ≤ 350 →
        (s.setOvervoltageAlarm volts r).2.getLastOperationResult = r.status)
    ∧ ((s.setOvervoltageAlarm volts r).1 = true →
        (s.setOvervoltageAlarm volts r).2.getLastOperationResult = ku8MBSuccess) := by
  have hsh : (s.shiftLastRead f).lastResult = s.lastResult := by cases f <;> rfl
  refine ⟨?_, ?_, ?_, ?_, ?_, ?_, ?_, ?_, ?_, ?_, ?_, ?_, ?_, ?_, ?_, ?_, ?_⟩
  · intro hf
    rw [after_eq_updateValues, ok_eq_updateValues]
    by_cases hr : r.status = ku8MBSuccess
    · rw [updateValues_of_stale_ok _ now fin r hf hr]
      simp [getLastOperationResult, hr]
    · rw [updateValues_of_stale_fail _ now fin r hf hr]
      simp [getLastOperationResult]
  · intro hf
    rw [after_eq_updateValues, ok_eq_updateValues, updateValues_of_fresh _ now fin r hf]
    exact ⟨rfl, hsh⟩
  · by_cases hr : r.status = ku8MBSuccess
    · simp [resetEnergy, arbitraryCommandNoParameters, hr, getLastOperationResult]
    · simp [resetEnergy, arbitraryCommandNoParameters, hr, getLastOperationResult]
  · by_cases hr : r.status = ku8MBSuccess
    · simp [resetEnergy, arbitraryCommandNoParameters, hr, getLastOperationResult]
    · simp [resetEnergy, arbitraryCommandNoParameters, hr, getLastOperationResult]
  · unfold setSlaveAddress
    split
    · intro _; rfl
    · intro h; exact absurd h (by simp)
  · unfold setSlaveAddress
    split
    · intro h; exact absurd h (by simp)
    · intro _; rfl
  · intro hv
    have h : a < 0x0001 ∨ a > 0x00f7 := by
      unfold validAddress at hv
      omega
    unfold setAddress
    rw [if_pos h]
    exact ⟨rfl, rfl⟩
  · intro hv
    have h : ¬ (a < 0x0001 ∨ a > 0x00f7) := by
      unfold validAddress at hv
      omega
    unfold setAddress
    rw [if_neg h]
    rfl
  · unfold setAddress
    split
    · intro h; exact absurd h (by simp)
    · intro h
      simpa [writeSingleRegister, getLastOperationResult] using h
  · rfl
  · intro h
    simpa [setCurrentRange, writeSingleRegister, getLastOperationResult] using h
  · intro h
    rw [setUndervoltageAlarm_reject s volts r h]; rfl
  · intro h1 h350
    rw [setUndervoltageAlarm_accept s volts r h1 h350]; rfl
  · unfold setUndervoltageAlarm
    split
    · intro h; exact absurd h (by simp)
    · intro h
      simpa [writeSingleRegister, getLastOperationResult] using h
  · intro h
    rw [setOvervoltageAlarm_reject s volts r h]; rfl
  · intro h5 h350
    rw [setOvervoltageAlarm_accept s volts r h5 h350]; rfl
  · unfold setOvervoltageAlarm
    split
    · intro h; exact absurd h (by simp)
    · intro h
      simpa [writeSingleRegister, getLastOperationResult] using h

theorem last_result_propagation_witness :
    ((idleSession.shiftLastRead false).cacheFresh 1000 = false
      ∧ (Getter.power.after idleSession false false 1000 1000 timeoutReply).getLastOperationResult
          = timeoutReply.status)
    ∧ ((idleSession.setSlaveAddress 5).1 = true
      ∧ (idleSession.setSlaveAddress 5).2.getLastOperationResult
          = idleSession.getLastOperationResult)
    ∧ ((idleSession.setAddress 5 okReply).1 = true
      ∧ (idleSession.setAddress 5 okReply).2.getLastOperationResult = ku8MBSuccess) :=
  ⟨⟨by decide,
    ((last_result_propagation idleSession Getter.power false false 1000 1000 timeoutReply
        5 0 7).1 (by decide)).1⟩,
   ⟨by decide,
    (last_result_propagation idleSession Getter.power false false 1000 1000 timeoutReply
        5 0 7).2.2.2.2.2.1 (by decide)⟩,
   ⟨by decide,
    (last_result_propagation idleSession Getter.power false false 1000 1000 okReply
        5 0 7).2.2.2.2.2.2.2.2.1 (by decide)⟩⟩

/-! ## The last-read timestamp -/

/-- C17 (counterexample). From `lastRead = 0`, `setUpdateInterval 1000` at clock
500 leaves `lastRead = 500`, and a `voltage` call with `forceNewReading = true`
at clock 1000 that is served from the cache leaves `lastRead = 1000`; neither
call logs a request, so neither performs a register read. -/
theorem lastRead_moves_without_read :
    idleSession.lastRead = 0
    ∧ (idleSession.setUpdateInterval 1000 500).lastRead = 500
    ∧ (idleSession.setUpdateInterval 1000 500).node.calls = []
    ∧ (Getter.voltage.after idleSession false true 1000 1000 okReply).lastRead = 1000
    ∧ (Getter.voltage.after idleSession false true 1000 1000 okReply).node.calls = [] := by
  have h1 : (idleSession.shiftLastRead true).cacheFresh 1000 = true := by decide
  have e1 := updateValues_of_fresh (idleSession.shiftLastRead true) 1000 1000 okReply h1
  refine ⟨rfl, rfl, rfl, ?_, ?_⟩
  · rw [after_eq_updateValues, e1]; rfl
  · rw [after_eq_updateValues, e1]; rfl

/-- C17 (amended). `lastRead` after the call equals `lastRead` before it for a
getter called without `forceNewReading` that is served from the cache or whose
read fails, and for `begin`, `resetEnergy`, `setSlaveAddress`, `setAddress`,
`setCurrentRange`, `getCurrentRange`, `setUndervoltageAlarm` and
`setOvervoltageAlarm`; `setUpdateInterval` sets `lastRead` to the clock value
of the call. -/
theorem lastRead_frame (s : PZEM017) (g : Getter) (alarm : Bool) (now fin : Nat)
    (r : Reply) (a range d : Nat) (volts : ℚ) (node : ModbusMaster) :
    (s.cacheFresh now = true ∨ r.status ≠ ku8MBSuccess →
        (g.after s alarm false now fin r).lastRead = s.lastRead)
    ∧ (s.begin a).lastRead = s.lastRead
    ∧ (s.beginNode node a).lastRead = s.lastRead
    ∧ (s.resetEnergy r).2.lastRead = s.lastRead
    ∧ (s.setSlaveAddress a).2.lastRead = s.lastRead
    ∧ (s.setAddress a r).2.lastRead = s.lastRead
    ∧ (s.setCurrentRange range r).2.lastRead = s.lastRead
    ∧ (s.getCurrentRange r).2.lastRead = s.lastRead
    ∧ (s.setUndervoltageAlarm volts r).2.lastRead = s.lastRead
    ∧ (s.setOvervoltageAlarm volts r).2.lastRead = s.lastRead
    ∧ (s.setUpdateInterval d now).lastRead = now := by
  refine ⟨?_, rfl, rfl, ?_, ?_, ?_, rfl, rfl, ?_, ?_, rfl⟩
  · intro h
    rw [after_eq_updateValues]
    have hs : s.shiftLastRead false = s := rfl
    rw [hs]
    cases hf : s.cacheFresh now with
    | true => rw [updateValues_of_fresh s now fin r hf]
    | false =>
      have hr : r.status ≠ ku8MBSuccess := by
        rcases h with h | h
        · rw [hf] at h; exact absurd h (by simp)
        · exact h
      rw [updateValues_of_stale_fail s now fin r hf hr]
  · by_cases hr : r.status = ku8MBSuccess
    · simp [resetEnergy, arbitraryCommandNoParameters, hr]
    · simp [resetEnergy, arbitraryCommandNoParameters, hr]
  · unfold setSlaveAddress
    split <;> rfl
  · unfold setAddress
    split <;> rfl
  · unfold setUndervoltageAlarm
    split <;> rfl
  · unfold setOvervoltageAlarm
    split <;> rfl

theorem lastRead_frame_witness :
    (idleSession.cacheFresh 1000 = true ∨ timeoutReply.status ≠ ku8MBSuccess)
    ∧ (Getter.energy.after idleSession false false 1000 1000 timeoutReply).lastRead
        = idleSession.lastRead :=
  ⟨Or.inr (by decide),
   (lastRead_frame idleSession Getter.energy false 1000 1000 timeoutReply 1 0 0 7
      freshNode).1 (Or.inr (by decide))⟩

/-- C18 (counterexample). After `setUpdateInterval 5000` at clock 2000, a
`voltage` call at the later clock 3000 logs no request: it is served from the
cache.  Without the `setUpdateInterval` call the same `voltage` call issues the
register read. -/
theorem interval_change_serves_cache :
    (Getter.voltage.after (idleSession.setUpdateInterval 5000 2000)
        false false 3000 3000 okReply).node.calls = []
    ∧ Getter.voltage.ok (idleSession.setUpdateInterval 5000 2000)
        false false 3000 3000 okReply = true
    ∧ (Getter.voltage.after idleSession false false 3000 3000 okReply).node.calls
        = [Call.readInputRegisters 0x0000 7] := by
  have h1 : ((idleSession.setUpdateInterval 5000 2000).shiftLastRead false).cacheFresh 3000
      = true := by decide
  have h0 : (idleSession.shiftLastRead false).cacheFresh 3000 = false := by decide
  have e1 := updateValues_of_fresh _ 3000 3000 okReply h1
  refine ⟨?_, ?_, ?_⟩
  · rw [after_eq_updateValues, e1]; rfl
  · rw [ok_eq_updateValues, e1]
  · rw [after_eq_updateValues, calls_updateValues_of_stale _ _ _ _ h0]; rfl

/-- C18 (amended). `setUpdateInterval d` at clock `now` stores `d` as the update
interval and sets `lastRead` to `now`, leaving snapshot, slave address,
`lastResult` and node unchanged; the next getter call without
`forceNewReading`, at clock `t`, issues the register read when
`now + d ≤ t` (64-bit sum), that is once the new interval has elapsed, and
otherwise reports success from the cache and leaves the session untouched. -/
theorem setUpdateInterval_then_getter (s : PZEM017) (d now t fin : Nat) (r : Reply)
    (g : Getter) (alarm : Bool) :
    s.setUpdateInterval d now = { s with updateInterval := d, lastRead := now }
    ∧ ((now + d) % 2 ^ 64 ≤ t →
        (g.after (s.setUpdateInterval d now) alarm false t fin r).node.calls
          = s.node.calls ++ [Call.readInputRegisters 0x0000 7])
    ∧ (t < (now + d) % 2 ^ 64 →
        g.after (s.setUpdateInterval d now) alarm false t fin r = s.setUpdateInterval d now
        ∧ g.ok (s.setUpdateInterval d now) alarm false t fin r = true) := by
  have hs : (s.setUpdateInterval d now).shiftLastRead false = s.setUpdateInterval d now := rfl
  refine ⟨rfl, ?_, ?_⟩
  · intro h
    have hf : (s.setUpdateInterval d now).cacheFresh t = false := by
      simp only [cacheFresh, setUpdateInterval, decide_eq_false_iff_not]
      omega
    rw [after_eq_updateValues, hs, calls_updateValues_of_stale _ _ _ _ hf]
    rfl
  · intro h
    have hf : (s.setUpdateInterval d now).cacheFresh t = true := by
      simp only [cacheFresh, setUpdateInterval, decide_eq_true_eq]
      omega
    rw [after_eq_updateValues, ok_eq_updateValues, hs, updateValues_of_fresh _ _ _ _ hf]
    exact ⟨rfl, rfl⟩

theorem setUpdateInterval_then_getter_witness :
    ((2000 + 5000) % 2 ^ 64 ≤ 7000
      ∧ (Getter.current.after (idleSession.setUpdateInterval 5000 2000)
          false false 7000 7001 okReply).node.calls
        = idleSession.node.calls ++ [Call.readInputRegisters 0x0000 7])
    ∧ (6999 < (2000 + 5000) % 2 ^ 64
      ∧ Getter.current.after (idleSession.setUpdateInterval 5000 2000)
          false false 6999 6999 okReply
        = idleSession.setUpdateInterval 5000 2000) :=
  ⟨⟨by decide,
    (setUpdateInterval_then_getter idleSession 5000 2000 7000 7001 okReply
      Getter.current false).2.1 (by decide)⟩,
   ⟨by decide,
    ((setUpdateInterval_then_getter idleSession 5000 2000 6999 6999 okReply
      Getter.current false).2.2 (by decide)).1⟩⟩

/-! ## Words behind the response, and the forced shift -/

/-- After a successful read, a buffer word behind the response is the word the
buffer held before the read. -/
theorem getResponseBuffer_read_behind (n : ModbusMaster) (c : Call) (r : Reply) (i : Nat)
    (hr : r.status = ku8MBSuccess) (hi : r.words.length ≤ i) :
    (n.readRegisters c r).2.getResponseBuffer i = n.getResponseBuffer i := by
  have hget : (store r.words n.responseBuffer).getD i 0 = n.responseBuffer.getD i 0 := by
    unfold store
    rw [List.getD_append_right _ _ _ _ hi, List.getD_eq_getElem?_getD,
      List.getD_eq_getElem?_getD, List.getElem?_drop]
    congr 2
    omega
  simp only [readRegisters, getResponseBuffer, hr, if_true, hget]

/-- C19 (the code at the failing input). `updateValues` requests 7 input
registers from offset 0, and the under-voltage flag is decoded from buffer
offset 7, which no 7-word response reaches: after any successful read
answered with 7 words the flag is what the buffer held in word 7 before the
read.  So the same 7 words `okReply` give under-voltage = false on a node whose
word 7 was 0 and under-voltage = true on a node whose word 7 was `0xFFFF`, and
the two snapshots differ. -/
theorem under_voltage_flag_outside_read :
    (idleSession.updateValues 1000 1000 okReply).2.node.calls
        = [Call.readInputRegisters 0x0000 7]
    ∧ okReply.words.length = 7
    ∧ ¬ (HOLDING_REGISTER_ALARM_UNDERVOLTAGE ≤ 6)
    ∧ (idleSession.updateValues 1000 1000 okReply).2.currentValues.underVoltageAlarm = false
    ∧ (usedSession.updateValues 1000 1000 okReply).2.currentValues.underVoltageAlarm = true
    ∧ (idleSession.updateValues 1000 1000 okReply).2.currentValues
        ≠ (usedSession.updateValues 1000 1000 okReply).2.currentValues
    ∧ (∀ (s : PZEM017) (now fin : Nat) (r : Reply), s.cacheFresh now = false →
        r.status = ku8MBSuccess → r.words.length = 7 →
        (s.updateValues now fin r).2.currentValues.underVoltageAlarm
          = decide (s.node.getResponseBuffer 7 = 0xFFFF)) := by
  have gen : ∀ (s : PZEM017) (now fin : Nat) (r : Reply), s.cacheFresh now = false →
      r.status = ku8MBSuccess → r.words.length = 7 →
      (s.updateValues now fin r).2.currentValues.underVoltageAlarm
        = decide (s.node.getResponseBuffer 7 = 0xFFFF) := by
    intro s now fin r hf hr hlen
    rw [updateValues_of_stale_ok s now fin r hf hr]
    have hb := getResponseBuffer_read_behind s.node (Call.readInputRegisters 0x0000 7) r 7
      hr (by omega)
    simp only [readInputRegisters, hb]
  have hi : idleSession.cacheFresh 1000 = false := by decide
  have hu : usedSession.cacheFresh 1000 = false := by decide
  have a1 := gen idleSession 1000 1000 okReply hi rfl rfl
  have a2 := gen usedSession 1000 1000 okReply hu rfl rfl
  have b1 : (idleSession.updateValues 1000 1000 okReply).2.currentValues.underVoltageAlarm
      = false := by rw [a1]; decide
  have b2 : (usedSession.updateValues 1000 1000 okReply).2.currentValues.underVoltageAlarm
      = true := by rw [a2]; decide
  refine ⟨?_, rfl, by decide, b1, b2, ?_, gen⟩
  · rw [calls_updateValues_of_stale _ _ _ _ hi]; rfl
  · intro h
    have := congrArg CurrentValues.underVoltageAlarm h
    rw [b1, b2] at this
    exact absurd this (by decide)

/-- C20. The forced shift is additive and precedes the cache test: a getter
called with `forceNewReading = true` from `lastRead = L`, `updateInterval = I`
first stores `L + I` (mod 2^64) and runs the cache test on it, so the register
read is issued iff `(L + I) + I ≤ now` (sums mod 2^64); when no read is issued
or the read fails the timestamp left behind is `L + I`, and when the read
succeeds it is the clock value stamped by the read (`now` for a call at one
instant). -/
theorem forced_shift_additive (g : Getter) (s : PZEM017) (alarm : Bool) (now fin : Nat)
    (r : Reply) :
    ((g.after s alarm true now fin r).node.calls
          = s.node.calls ++ [Call.readInputRegisters 0x0000 7]
        ↔ ((s.lastRead + s.updateInterval) % 2 ^ 64 + s.updateInterval) % 2 ^ 64 ≤ now)
    ∧ (now < ((s.lastRead + s.updateInterval) % 2 ^ 64 + s.updateInterval) % 2 ^ 64 →
        (g.after s alarm true now fin r).node.calls = s.node.calls
        ∧ (g.after s alarm true now fin r).lastRead
            = (s.lastRead + s.updateInterval) % 2 ^ 64)
    ∧ (((s.lastRead + s.updateInterval) % 2 ^ 64 + s.updateInterval) % 2 ^ 64 ≤ now →
        r.status ≠ ku8MBSuccess →
        (g.after s alarm true now fin r).lastRead
            = (s.lastRead + s.updateInterval) % 2 ^ 64)
    ∧ (((s.lastRead + s.updateInterval) % 2 ^ 64 + s.updateInterval) % 2 ^ 64 ≤ now →
        r.status = ku8MBSuccess →
        (g.after s alarm true now fin r).lastRead = fin
        ∧ (g.after s alarm true now now r).lastRead = now) := by
  have hL : (s.shiftLastRead true).lastRead = (s.lastRead + s.updateInterval) % 2 ^ 64 := rfl
  have hI : (s.shiftLastRead true).updateInterval = s.updateInterval := rfl
  have hN : (s.shiftLastRead true).node = s.node := rfl
  have stale : ((s.lastRead + s.updateInterval) % 2 ^ 64 + s.updateInterval) % 2 ^ 64 ≤ now →
      (s.shiftLastRead true).cacheFresh now = false := by
    intro h
    simp only [cacheFresh, hL, hI, decide_eq_false_iff_not]
    omega
  have fresh : now < ((s.lastRead + s.updateInterval) % 2 ^ 64 + s.updateInterval) % 2 ^ 64 →
      (s.shiftLastRead true).cacheFresh now = true := by
    intro h
    simp only [cacheFresh, hL, hI, decide_eq_true_eq]
    omega
  have hit : now < ((s.lastRead + s.updateInterval) % 2 ^ 64 + s.updateInterval) % 2 ^ 64 →
      (g.after s alarm true now fin r).node.calls = s.node.calls
      ∧ (g.after s alarm true now fin r).lastRead
          = (s.lastRead + s.updateInterval) % 2 ^ 64 := by
    intro h
    rw [after_eq_updateValues, updateValues_of_fresh _ _ _ _ (fresh h)]
    exact ⟨rfl, rfl⟩
  refine ⟨⟨?_, ?_⟩, hit, ?_, ?_⟩
  · intro hc
    by_contra hn
    have h := (hit (by omega)).1
    rw [h] at hc
    have := congrArg List.length hc
    simp at this
  · intro h
    rw [after_eq_updateValues, calls_updateValues_of_stale _ _ _ _ (stale h), hN]
  · intro h hr
    rw [after_eq_updateValues, updateValues_of_stale_fail _ _ _ _ (stale h) hr]
    exact hL
  · intro h hr
    rw [after_eq_updateValues, after_eq_updateValues]
    exact ⟨(lastRead_updateValues_of_stale_ok _ _ _ _ (stale h) hr).1,
      (lastRead_updateValues_of_stale_ok _ _ _ _ (stale h) hr).1⟩

theorem forced_shift_additive_witness :
    ((((idleSession.lastRead + idleSession.updateInterval) % 2 ^ 64
          + idleSession.updateInterval) % 2 ^ 64 ≤ 2000
        ∧ okReply.status = ku8MBSuccess)
      ∧ (Getter.voltage.after idleSession false true 2000 2003 okReply).lastRead = 2003)
    ∧ (1999 < ((idleSession.lastRead + idleSession.updateInterval) % 2 ^ 64
          + idleSession.updateInterval) % 2 ^ 64
      ∧ (Getter.voltage.after idleSession false true 1999 1999 okReply).lastRead
          = (idleSession.lastRead + idleSession.updateInterval) % 2 ^ 64) :=
  ⟨⟨by decide,
    ((forced_shift_additive Getter.voltage idleSession false 2000 2003 okReply).2.2.2
      (by decide) rfl).1⟩,
   ⟨by decide,
    ((forced_shift_additive Getter.voltage idleSession false 1999 1999 okReply).2.1
      (by decide)).2⟩⟩

end PZEM017
